import Mathlib

/-!
# FindMyWay: coordinate mapping and effect routines

A shallow embedding of `XYmap.h` and of the effect routines of `effects.h`
that the properties below talk about.

Conventions of the embedding:

* `uint8_t` / `byte` values are natural numbers; every assignment to an 8-bit
  variable is written with an explicit `% 256`.
* C `int` arithmetic is done in `Int`; C division and remainder truncate
  towards zero, so they are `Int.tdiv` and `Int.tmod`.
* The read of `XYTable` returns an `Option`, `none` for a position outside the table.
* Functions and constants defined outside the two files are the fields of `Lib`;
  the values returned by the random generator are arguments of the routine that
  draws them.
* A routine with static variables takes them as an argument and returns them
  next to the global variables.
* A routine with a loop that may not end (`fireworks`) returns an `Option`, `none`
  when the loop does not end.
-/

namespace FindMyWay

/-! ## XYmap.h -/

/-- Width of the matrix: `const uint8_t kMatrixWidth = 16;`. -/
def kMatrixWidth : Nat := 16

/-- Height of the matrix: `const uint8_t kMatrixHeight = 16;`. -/
def kMatrixHeight : Nat := 16

/-- Number of cells of the frame buffer: `#define NUM_LEDS (kMatrixWidth * kMatrixHeight)`.
The operands are promoted to `int` before the product, so it does not wrap. -/
def NUM_LEDS : Nat := kMatrixWidth * kMatrixHeight

/-- Last index that is displayed: `#define LAST_VISIBLE_LED 255`. -/
def LAST_VISIBLE_LED : Nat := 255

/-- The table local to `XY2`, `const uint8_t XYTable[]`, copied row by row. -/
def XYTable : List Nat :=
  [  0,  16,  32,  48,  64,  80,  96, 112, 128, 144, 160, 176, 192, 208, 224, 240,
     1,  17,  33,  49,  65,  81,  97, 113, 129, 145, 161, 177, 193, 209, 225, 241,
     2,  18,  34,  50,  66,  82,  98, 114, 130, 146, 162, 178, 194, 210, 226, 242,
     3,  19,  35,  51,  67,  83,  99, 115, 131, 147, 163, 179, 195, 211, 227, 243,
     4,  20,  36,  52,  68,  84, 100, 116, 132, 148, 164, 180, 196, 212, 228, 244,
     5,  21,  37,  53,  69,  85, 101, 117, 133, 149, 165, 181, 197, 213, 229, 245,
     6,  22,  38,  54,  70,  86, 102, 118, 134, 150, 166, 182, 198, 214, 230, 246,
     7,  23,  39,  55,  71,  87, 103, 119, 135, 151, 167, 183, 199, 215, 231, 247,
     8,  24,  40,  56,  72,  88, 104, 120, 136, 152, 168, 184, 200, 216, 232, 248,
     9,  25,  41,  57,  73,  89, 105, 121, 137, 153, 169, 185, 201, 217, 233, 249,
    10,  26,  42,  58,  74,  90, 106, 122, 138, 154, 170, 186, 202, 218, 234, 250,
    11,  27,  43,  59,  75,  91, 107, 123, 139, 155, 171, 187, 203, 219, 235, 251,
    12,  28,  44,  60,  76,  92, 108, 124, 140, 156, 172, 188, 204, 220, 236, 252,
    13,  29,  45,  61,  77,  93, 109, 125, 141, 157, 173, 189, 205, 221, 237, 253,
    14,  30,  46,  62,  78,  94, 110, 126, 142, 158, 174, 190, 206, 222, 238, 254,
    15,  31,  47,  63,  79,  95, 111, 127, 143, 159, 175, 191, 207, 223, 239, 255]

/-- What one call of `XY2` does: the position of `XYTable` it reads (`none` when
the call reads no table entry) and the value it returns (`none` when the read
falls outside the table). -/
structure XY2Call where
  /-- Position read in `XYTable`, if any. -/
  lookup : Option Nat
  /-- Returned index. -/
  ret : Option Nat
deriving DecidableEq, Repr

/-- One call `XY2(x, y)` on 8-bit arguments, with the table access recorded.
`uint8_t i = (y * kMatrixWidth) + x; uint8_t j = XYTable[i]; return j;` -/
def XY2Run (x y : Nat) : XY2Call :=
  if x ≥ kMatrixWidth ∨ y ≥ kMatrixHeight then
    { lookup := none, ret := some (LAST_VISIBLE_LED + 1) }
  else
    let i := (y * kMatrixWidth + x) % 256
    { lookup := some i, ret := (XYTable[i]?).map (fun j => j % 256) }

/-- The value returned by `XY2(x, y)`. -/
def XY2 (x y : Nat) : Option Nat := (XY2Run x y).ret

/-- The trivial mapper `uint8_t XY(uint8_t x, uint8_t y)`: the sum is computed in
`int` and truncated to 8 bits by the return type. -/
def XY (x y : Nat) : Nat := (y * kMatrixWidth + x) % 256

/-- The rotation `int deg(int i) { return ((i / 16) + ((i + 16) % 16 * 16)); }`. -/
def deg (i : Int) : Int := Int.tdiv i 16 + Int.tmod (i + 16) 16 * 16

/-! ## effects.h: data -/

/-- A colour cell `CRGB`: three 8-bit channels. -/
structure CRGB where
  /-- Red channel. -/
  r : Nat
  /-- Green channel. -/
  g : Nat
  /-- Blue channel. -/
  b : Nat
deriving DecidableEq, Repr

/-- The colour `CRGB::Black`. -/
def CRGB.Black : CRGB := ⟨0, 0, 0⟩

/-- The colour `CRGB::White`. -/
def CRGB.White : CRGB := ⟨255, 255, 255⟩

/-- The colour `CRGB::Gray`. -/
def CRGB.Gray : CRGB := ⟨128, 128, 128⟩

/-- Modelled from the spec: the class of the elements of `gSparks` is declared outside
the two files; `fireworks` uses its field `show` and its methods `Move`, `Draw` and
`Skyburst`. A spark has a position and a velocity (two 8.8 fixed-point fields each), a
colour and the alive flag `show`. -/
structure Spark where
  /-- Alive flag `show`, a byte. -/
  «show» : Nat := 0
  /-- Horizontal position. -/
  x : Nat := 0
  /-- Vertical position. -/
  y : Nat := 0
  /-- Horizontal velocity. -/
  xv : Int := 0
  /-- Vertical velocity. -/
  yv : Int := 0
  /-- Colour of the spark. -/
  color : CRGB := CRGB.Black
deriving DecidableEq, Repr

/-- The global variables the routines read and write. Only `leds` (XYmap.h) and
`repCount` (effects.h) are declared in the two files; the others are declared by the
rest of the sketch and used here under their names. `charBuffer` is the column buffer
filled by `loadCharBuffer`, `selectedString` what `selectFlashString` selected,
`colorCycleState` the memory of `colorCycle`, and `cyclePatternCalls` counts the calls
of `cyclePattern` made so far. -/
structure Globals where
  /-- Flag `effectInit`. -/
  effectInit : Bool := false
  /-- Milliseconds until the next run, `effectDelay`. -/
  effectDelay : Nat := 0
  /-- Frame buffer `CRGB leds[NUM_LEDS]`. -/
  leds : List CRGB := List.replicate NUM_LEDS CRGB.Black
  /-- The 16 entries of `currentPalette`. -/
  currentPalette : List CRGB := []
  /-- Global hue `cycleHue`. -/
  cycleHue : Nat := 0
  /-- Remaining repeats, `byte repCount = 0;`. -/
  repCount : Nat := 0
  /-- Columns of the current glyph. -/
  charBuffer : List Nat := []
  /-- String chosen by `selectFlashString`. -/
  selectedString : Nat := 0
  /-- Memory of `colorCycle`. -/
  colorCycleState : Nat := 0
  /-- Number of calls of `cyclePattern` so far. -/
  cyclePatternCalls : Nat := 0
  /-- Flag `gSkyburst`: a burst is to be triggered. -/
  gSkyburst : Nat := 0
  /-- Flag `fadingActive`. -/
  fadingActive : Bool := false
  /-- The pool `gSparks[NUM_SPARKS]`; its length is `NUM_SPARKS`. -/
  gSparks : List Spark := []
deriving DecidableEq, Repr

/-- Functions and constants that the routines use and that are defined outside
`effects.h` and `XYmap.h` (the FastLED library and the other headers of the sketch).
They are parameters of the embedding; 8-bit results are truncated at the call site. -/
structure Lib where
  /-- FastLED `sin8(theta)`. -/
  sin8 : Nat → Nat
  /-- FastLED `triwave8(in)`. -/
  triwave8 : Nat → Nat
  /-- FastLED `qmul8(i, j)`. -/
  qmul8 : Nat → Nat → Nat
  /-- Conversion of `CHSV(h, s, v)` to the `CRGB` that is stored. -/
  hsv : Nat → Nat → Nat → CRGB
  /-- The 16 entries of `RainbowColors_p`. -/
  RainbowColors_p : List CRGB
  /-- FastLED `ColorFromPalette(pal, index, brightness)`. -/
  ColorFromPalette : List CRGB → Nat → Nat → CRGB
  /-- FastLED `fadeToBlackBy(leds, num, fadeBy)`. -/
  fadeToBlackBy : List CRGB → Nat → Nat → List CRGB
  /-- FastLED `CRGB::nscale8(scale)`. -/
  nscale8 : CRGB → Nat → CRGB
  /-- Sketch helper `scrollArray(dir)`, acting on the frame buffer. -/
  scrollArray : Nat → List CRGB → List CRGB
  /-- Sketch helper `fillAll(color)`, acting on the frame buffer. -/
  fillAll : CRGB → List CRGB → List CRGB
  /-- Sketch helper `loadStringChar(message, character)`. -/
  loadStringChar : Nat → Nat → Nat
  /-- Sketch helper `loadCharBuffer(c)`: the new contents of `charBuffer`. -/
  loadCharBuffer : Nat → List Nat
  /-- Sketch helper `colorCycle(style)`: the colour and its new memory. -/
  colorCycle : Nat → Nat → CRGB × Nat
  /-- What `cyclePattern()` does to the global variables. -/
  cyclePattern : Globals → Globals
  /-- Text style `NORMAL`. -/
  NORMAL : Nat
  /-- Text style `RAINBOW`. -/
  RAINBOW : Nat
  /-- Text style `PALETTEWORDS`. -/
  PALETTEWORDS : Nat
  /-- Text style `CANDYCANE`. -/
  CANDYCANE : Nat
  /-- Text style `HOLLY`. -/
  HOLLY : Nat
  /-- Text style `HOLLY2`. -/
  HOLLY2 : Nat

/-- The assignment `leds[i] = c`. -/
def setLed (leds : List CRGB) (i : Nat) (c : CRGB) : List CRGB := leds.set i c

/-- The read `pal[i]` of a palette entry; a position outside the palette reads black. -/
def paletteEntry (pal : List CRGB) (i : Nat) : CRGB := pal.getD i CRGB.Black

/-- The loop `for (byte v = 0; v < n; v++) body`, run on the frame buffer. -/
def forRange (n : Nat) (body : Nat → List CRGB → List CRGB) (leds : List CRGB) : List CRGB :=
  (List.range n).foldl (fun acc v => body v acc) leds

/-! ## effects.h: threeSine -/

/-- One of the three distances of `threeSine`:
`qmul8(abs(y * (255 / kMatrixHeight) - sin8(sineOffset * k + x * 16)), 2)` stored in a byte. -/
def sinDistance (L : Lib) (k sineOffset x y : Nat) : Nat :=
  L.qmul8 (Int.natAbs (((y * (255 / kMatrixHeight) : Nat) : Int)
    - ((L.sin8 ((sineOffset * k + x * 16) % 256) % 256 : Nat) : Int)) % 256) 2 % 256

/-- Routine `threeSine()`: the globals and the static `sineOffset` after one call. -/
def threeSine (L : Lib) (g : Globals) (sineOffset : Nat) : Globals × Nat :=
  let g1 := if g.effectInit = false then { g with effectInit := true, effectDelay := 20 } else g
  let leds := forRange kMatrixWidth (fun x => forRange kMatrixHeight (fun y acc =>
    setLed acc (XY x y) ⟨255 - sinDistance L 9 sineOffset x y,
      255 - sinDistance L 10 sineOffset x y, 255 - sinDistance L 11 sineOffset x y⟩)) g1.leds
  ({ g1 with leds := leds }, (sineOffset + 1) % 256)

/-! ## effects.h: rider -/

/-- The brightness of column `x` in `rider`:
`abs(x * (256 / kMatrixWidth) - triwave8(riderPos) * 2 + 127) * 3`, clamped to 255 and
subtracted from 255. -/
def riderBrightness (L : Lib) (riderPos x : Nat) : Nat :=
  let b : Nat := Int.natAbs (((x * (256 / kMatrixWidth) : Nat) : Int)
    - ((L.triwave8 riderPos % 256 : Nat) : Int) * 2 + 127) * 3
  let b := if b > 255 then 255 else b
  255 - b

/-- Routine `rider()`: the globals and the static `riderPos` after one call. -/
def rider (L : Lib) (g : Globals) (riderPos : Nat) : Globals × Nat :=
  let start := if g.effectInit = false then
      (({ g with effectInit := true, effectDelay := 5 } : Globals), 0)
    else (g, riderPos)
  let g1 := start.1
  let pos := start.2
  let leds := forRange kMatrixWidth (fun x acc =>
    let riderColor := L.hsv g1.cycleHue 255 (riderBrightness L pos x)
    forRange kMatrixHeight (fun y acc2 => setLed acc2 (XY x y) riderColor) acc) g1.leds
  ({ g1 with leds := leds }, (pos + 1) % 256)

/-! ## effects.h: colorFill -/

/-- The three static counters of `colorFill`. -/
structure ColorFillVars where
  /-- Static `currentColor`. -/
  currentColor : Nat := 0
  /-- Static `currentRow`. -/
  currentRow : Nat := 0
  /-- Static `currentDirection`. -/
  currentDirection : Nat := 0
deriving DecidableEq, Repr

/-- Routine `colorFill()`: the globals and the statics after one call; `rnd` is the
value that `random8(3, 6)` returns if it is called. -/
def colorFill (L : Lib) (rnd : Nat) (g : Globals) (v : ColorFillVars) :
    Globals × ColorFillVars :=
  let start := if g.effectInit = false then
      (({ g with effectInit := true, effectDelay := 45,
                 currentPalette := L.RainbowColors_p } : Globals),
       ({ currentColor := 0, currentRow := 0, currentDirection := 0 } : ColorFillVars))
    else (g, v)
  let g1 := start.1
  let v1 := start.2
  let color := paletteEntry g1.currentPalette v1.currentColor
  let g2 : Globals := if v1.currentDirection &&& 1 = 0 then
      { g1 with effectDelay := 45, leds := forRange kMatrixWidth (fun x acc =>
          let y := if v1.currentDirection = 2 then
              (256 + kMatrixHeight - 1 - v1.currentRow) % 256 else v1.currentRow
          setLed acc (XY x y) color) g1.leds }
    else g1
  let g3 : Globals := if v1.currentDirection &&& 1 ≠ 0 then
      { g2 with effectDelay := 20, leds := forRange kMatrixHeight (fun y acc =>
          let x := if v1.currentDirection = 3 then
              (256 + kMatrixWidth - 1 - v1.currentRow) % 256 else v1.currentRow
          setLed acc (XY x y) color) g2.leds }
    else g2
  let row := (v1.currentRow + 1) % 256
  if (v1.currentDirection &&& 1 = 0 ∧ row ≥ kMatrixHeight) ∨
      (v1.currentDirection &&& 1 ≠ 0 ∧ row ≥ kMatrixWidth) then
    let c := (v1.currentColor + rnd) % 256
    let c := if c > 15 then c - 16 else c
    let d := (v1.currentDirection + 1) % 256
    let d := if d > 3 then 0 else d
    ({ g3 with effectDelay := 300 }, { currentColor := c, currentRow := 0, currentDirection := d })
  else
    (g3, { v1 with currentRow := row })

/-! ## effects.h: scrollText -/

/-- Blank columns after a glyph: `#define charSpacing 2`. -/
def charSpacing : Nat := 2

/-- The static variables of `scrollText`. -/
structure ScrollTextVars where
  /-- Static `currentMessageChar`. -/
  currentMessageChar : Nat := 0
  /-- Static `currentCharColumn`. -/
  currentCharColumn : Nat := 0
  /-- Static `paletteCycle`. -/
  paletteCycle : Nat := 0
  /-- Static `currentColor`. -/
  currentColor : CRGB := CRGB.Black
  /-- Static `currentWordCount`. -/
  currentWordCount : Nat := 0
  /-- Static `currentChar`. -/
  currentChar : Nat := 0
deriving DecidableEq, Repr

/-- The call `loadStringChar(message, character)`, its result stored in 8 bits. -/
def loadChar (L : Lib) (message character : Nat) : Nat :=
  L.loadStringChar message character % 256

/-- The call `cyclePattern()`: whatever it does to the globals, and one more call counted. -/
def cyclePatternCall (L : Lib) (g : Globals) : Globals :=
  { L.cyclePattern g with cyclePatternCalls := g.cyclePatternCalls + 1 }

/-- The startup block of `scrollText`, run when `effectInit == false`. -/
def scrollTextInit (L : Lib) (message style : Nat) (fgColor : CRGB) (repeats : Nat)
    (g : Globals) (v : ScrollTextVars) : Globals × ScrollTextVars :=
  let c := loadChar L message 0
  let pal := if style = L.RAINBOW then L.RainbowColors_p
    else if style = L.PALETTEWORDS then L.RainbowColors_p else g.currentPalette
  let col : CRGB × Nat :=
    if style = L.NORMAL then (fgColor, g.colorCycleState)
    else if style = L.PALETTEWORDS then (L.ColorFromPalette pal 0 255, g.colorCycleState)
    else if style = L.CANDYCANE ∨ style = L.HOLLY ∨ style = L.HOLLY2 then
      L.colorCycle style g.colorCycleState
    else (v.currentColor, g.colorCycleState)
  ({ g with effectInit := true, effectDelay := 35, selectedString := message,
            repCount := repeats, charBuffer := L.loadCharBuffer c, currentPalette := pal,
            colorCycleState := col.2, leds := L.fillAll CRGB.Black g.leds },
   { v with currentMessageChar := 0, currentCharColumn := 0, currentChar := c,
            paletteCycle := 0, currentColor := col.1 })

/-- The drawing part of `scrollText`: scroll the frame and paint the rightmost column. -/
def scrollTextDraw (L : Lib) (style : Nat) (bgColor : CRGB)
    (g : Globals) (v : ScrollTextVars) : Globals × ScrollTextVars :=
  let pc := if style = L.RAINBOW then (v.paletteCycle + 10) % 256 else v.paletteCycle
  let leds := forRange 16 (fun y acc =>
    let pixelColor :=
      if ((g.charBuffer.getD v.currentCharColumn 0) >>> y) &&& 1 = 1 ∧ v.currentCharColumn < 5 then
        (if style = L.RAINBOW then L.ColorFromPalette g.currentPalette ((pc + y * 16) % 256) 255
          else v.currentColor)
      else bgColor
    setLed acc (XY (kMatrixWidth - 1) y) pixelColor) (L.scrollArray 1 g.leds)
  ({ g with leds := leds }, { v with paletteCycle := pc })

/-- The end-of-string block of `scrollText`, run when `nextChar == 0`:
`currentMessageChar = 0; if (repCount > 0) repCount--; if (repCount == 0) cyclePattern();`. -/
def scrollTextEnd (L : Lib) (g : Globals) (v : ScrollTextVars) : Globals × ScrollTextVars :=
  let g1 : Globals := if g.repCount > 0 then { g with repCount := g.repCount - 1 } else g
  let g2 : Globals := if g1.repCount = 0 then cyclePatternCall L g1 else g1
  (g2, { v with currentMessageChar := 0 })

/-- The colour changes of `scrollText` between two characters. -/
def scrollTextColor (L : Lib) (style nextChar : Nat)
    (g : Globals) (v : ScrollTextVars) : Globals × ScrollTextVars :=
  let s1 : Globals × ScrollTextVars :=
    if v.currentChar = 32 ∧ nextChar ≠ 32 then
      if style = L.PALETTEWORDS then
        let pc := (v.paletteCycle + 15) % 256
        (g, { v with paletteCycle := pc,
                     currentColor := L.ColorFromPalette g.currentPalette ((pc * 15) % 256) 255 })
      else if style = L.CANDYCANE ∨ style = L.HOLLY then
        ({ g with colorCycleState := (L.colorCycle style g.colorCycleState).2 },
         { v with currentColor := (L.colorCycle style g.colorCycleState).1 })
      else (g, v)
    else (g, v)
  if v.currentChar ≠ 32 ∧ style = L.HOLLY2 then
    ({ s1.1 with colorCycleState := (L.colorCycle L.HOLLY s1.1.colorCycleState).2 },
     { s1.2 with currentColor := (L.colorCycle L.HOLLY s1.1.colorCycleState).1 })
  else s1

/-- The last part of `scrollText`: next column, and next character after the last column. -/
def scrollTextAdvance (L : Lib) (message style : Nat)
    (g : Globals) (v : ScrollTextVars) : Globals × ScrollTextVars :=
  let column := (v.currentCharColumn + 1) % 256
  if column > 4 + charSpacing then
    let v1 : ScrollTextVars :=
      { v with currentCharColumn := 0, currentMessageChar := (v.currentMessageChar + 1) % 256 }
    let first := loadChar L message v1.currentMessageChar
    let s2 : Globals × ScrollTextVars := if first = 0 then scrollTextEnd L g v1 else (g, v1)
    let nextChar := if first = 0 then loadChar L message s2.2.currentMessageChar else first
    let s3 := scrollTextColor L style nextChar s2.1 s2.2
    ({ s3.1 with charBuffer := L.loadCharBuffer nextChar }, { s3.2 with currentChar := nextChar })
  else
    (g, { v with currentCharColumn := column })

/-- Routine `scrollText(message, style, fgColor, bgColor, repeats)`: the globals and the
statics after one call. -/
def scrollText (L : Lib) (message style : Nat) (fgColor bgColor : CRGB) (repeats : Nat)
    (g : Globals) (v : ScrollTextVars) : Globals × ScrollTextVars :=
  let s1 := if g.effectInit = false then scrollTextInit L message style fgColor repeats g v
    else (g, v)
  let s2 := scrollTextDraw L style bgColor s1.1 s1.2
  scrollTextAdvance L message style s2.1 s2.2

/-- The state after `k` successive calls of `scrollText` with the same arguments. -/
def scrollTextRun (L : Lib) (message style : Nat) (fgColor bgColor : CRGB) (repeats : Nat) :
    Nat → Globals × ScrollTextVars → Globals × ScrollTextVars
  | 0, s => s
  | k + 1, s =>
    scrollText L message style fgColor bgColor repeats
      (scrollTextRun L message style fgColor bgColor repeats k s).1
      (scrollTextRun L message style fgColor bgColor repeats k s).2

/-! ## effects.h: flash and matrixConsole -/

/-- Routine `flash()`; `number` is the value returned by `random8()`. -/
def flash (L : Lib) (number : Nat) (g : Globals) : Globals :=
  { g with leds := setLed (L.fadeToBlackBy g.leds NUM_LEDS 255) (number % 256) CRGB.White }

/-- The position `deg(XY(col, row))` used as an index of `leds`. -/
def degXY (col row : Nat) : Nat := (deg ((XY col row : Nat) : Int)).toNat

/-- Routine `matrixConsole()`; `due` tells whether the `EVERY_N_MILLIS(75)` block runs,
`rnd3` is the value of `random8(3)` and `spawnX` the value of `random8(kMatrixWidth)`. -/
def matrixConsole (L : Lib) (due : Bool) (rnd3 spawnX : Nat) (g : Globals) : Globals :=
  if due then
    let leds1 := (List.range kMatrixHeight).reverse.foldl (fun acc row =>
      forRange kMatrixWidth (fun column acc2 =>
        if acc2[degXY column row]? = some ⟨175, 255, 175⟩ then
          let trail := setLed acc2 (degXY column row) ⟨27, 130, 39⟩
          if row < kMatrixHeight - 1 then setLed trail (degXY column (row + 1)) ⟨175, 255, 175⟩
          else trail
        else acc2) acc) g.leds
    let leds2 := forRange NUM_LEDS (fun i acc =>
      match acc[i]? with
      | some c => if c.g ≠ 255 then setLed acc i (L.nscale8 c 192) else acc
      | none => acc) leds1
    let emptyScreen : Bool := (leds2.take NUM_LEDS).all (fun c => decide (c = CRGB.Black))
    let leds3 := if rnd3 = 0 ∨ emptyScreen = true then
        setLed leds2 (degXY spawnX 0) ⟨175, 255, 175⟩
      else leds2
    { g with leds := leds3 }
  else g

/-! ## effects.h: colorFill, what a call reads and addresses -/

/-- What one call of `colorFill` reads and addresses: the position read in
`currentPalette[currentColor]` and the coordinates `(x, y)` passed to `XY`, in order. -/
structure ColorFillAccess where
  /-- Position read in the palette. -/
  paletteIndex : Nat
  /-- Coordinates passed to `XY`. -/
  coords : List (Nat × Nat)
deriving DecidableEq, Repr

/-- The palette position and the coordinates used by the call `colorFill()` made with
globals `g` and statics `v`: the statics are those left by the startup block when it
runs; the even directions walk `x` along the line `y`, the odd ones `y` along `x`. -/
def colorFillAccess (g : Globals) (v : ColorFillVars) : ColorFillAccess :=
  let v1 : ColorFillVars := if g.effectInit = false then
      { currentColor := 0, currentRow := 0, currentDirection := 0 }
    else v
  { paletteIndex := v1.currentColor,
    coords :=
      if v1.currentDirection &&& 1 = 0 then
        (List.range kMatrixWidth).map (fun x =>
          (x, if v1.currentDirection = 2 then
                (256 + kMatrixHeight - 1 - v1.currentRow) % 256 else v1.currentRow))
      else
        (List.range kMatrixHeight).map (fun y =>
          (if v1.currentDirection = 3 then
              (256 + kMatrixWidth - 1 - v1.currentRow) % 256 else v1.currentRow, y)) }

/-- The state after `k` successive calls of `colorFill`; `rnds i` is the value that
`random8(3, 6)` returns if call number `i + 1` draws it. -/
def colorFillRun (L : Lib) (rnds : Nat → Nat) :
    Nat → Globals × ColorFillVars → Globals × ColorFillVars
  | 0, s => s
  | k + 1, s =>
    colorFill L (rnds k) (colorFillRun L rnds k s).1 (colorFillRun L rnds k s).2

/-! ## effects.h: fireworks -/

/-- The two static variables of `fireworks`: `static int sparkLife = 50;` and
`static boolean boom = false;`. -/
structure FireworksVars where
  /-- Static `sparkLife`. -/
  sparkLife : Int := 50
  /-- Static `boom`. -/
  boom : Bool := false
deriving DecidableEq, Repr

/-- Functions used by `fireworks` that are defined outside the two files: the methods of
a spark and two helpers acting on the frame buffer. `Skyburst` takes first the random
numbers it draws, then the arguments of the call. -/
structure SparkOps where
  /-- Method `Move()` of a spark. -/
  Move : Spark → Spark
  /-- Method `Draw()` of a spark, which paints into the frame buffer. -/
  Draw : Spark → List CRGB → Spark × List CRGB
  /-- Method `Skyburst(basex, basey, basedv, basecolor)` of a spark. -/
  Skyburst : Nat → Nat → Nat → Int → CRGB → Spark → Spark
  /-- Sketch helper `fadeAll(amount)`. -/
  fadeAll : Nat → List CRGB → List CRGB
  /-- The call `FastLED.clear()`. -/
  clear : List CRGB → List CRGB

/-- The random numbers one call of `fireworks` draws when it triggers a burst. -/
structure FireworksDraws where
  /-- Value of `random(16, 150)`. -/
  life : Nat
  /-- Value of `random8()`. -/
  hue : Nat
  /-- Value of `random(127 - 64, 127 + 64)`. -/
  sx : Nat
  /-- Value of `random(127 - 16, 127 + 16)`. -/
  sy : Nat
  /-- Random numbers handed to `Skyburst` for spark number `b`. -/
  seeds : Nat → Nat

/-- The running state of the loop over the sparks in `fireworks`. -/
structure SparkLoop where
  /-- Sparks already processed, in order. -/
  sparks : List Spark
  /-- Frame buffer. -/
  leds : List CRGB
  /-- Local `byte sparksDone`. -/
  sparksDone : Nat
  /-- The sparks as they were when `Move()` was called on them. -/
  moved : List Spark
deriving DecidableEq, Repr

/-- One iteration of the loop over the sparks:
`if (sparkLife <= 0) gSparks[b].show = 0; gSparks[b].Move(); gSparks[b].Draw();
sparksDone += gSparks[b].show;`. -/
def sparkStep (O : SparkOps) (sparkLife : Int) (acc : SparkLoop) (s : Spark) : SparkLoop :=
  let s1 : Spark := if sparkLife ≤ 0 then { s with «show» := 0 } else s
  let s2 := O.Move s1
  let d := O.Draw s2 acc.leds
  { sparks := acc.sparks ++ [d.1], leds := d.2,
    sparksDone := (acc.sparksDone + d.1.show) % 256, moved := acc.moved ++ [s1] }

/-- The iterations of the loop over the sparks: one `sparkStep` per spark of the pool, in
the order of the pool. -/
def sparkFold (O : SparkOps) (sparkLife : Int) (sparks : List Spark) (leds : List CRGB) :
    SparkLoop :=
  sparks.foldl (sparkStep O sparkLife) { sparks := [], leds := leds, sparksDone := 0, moved := [] }

/-- The loop `for (byte b = 0; b < NUM_SPARKS; b++)` over the pool `gSparks[NUM_SPARKS]`.
The counter `b` is 8 bits wide: with 256 sparks or more it wraps to 0 before it reaches
`NUM_SPARKS` and the loop never ends, which is `none`. -/
def sparkLoop (O : SparkOps) (sparkLife : Int) (sparks : List Spark) (leds : List CRGB) :
    Option SparkLoop :=
  if sparks.length ≤ 255 then some (sparkFold O sparkLife sparks leds) else none

/-- What one call of `fireworks` does: the globals and statics it leaves, the value of
`sparksDone` tested by `if (sparksDone == 0)`, the sparks as they were when `Move()` was
called on them, and whether the burst block ran. -/
structure FireworksCall where
  /-- Globals after the call. -/
  globals : Globals
  /-- Statics after the call. -/
  vars : FireworksVars
  /-- Value of `sparksDone` after the loop. -/
  sparksDone : Nat
  /-- Sparks as handed to `Move()`. -/
  moved : List Spark
  /-- Whether the block under `if (gSkyburst)` ran. -/
  burst : Bool
deriving DecidableEq, Repr

/-- The startup block of `fireworks`, run when `effectInit == false`. -/
def fireworksStart (g : Globals) : Globals :=
  if g.effectInit = false then
    { g with effectInit := true, effectDelay := 5, gSkyburst := 1, fadingActive := false }
  else g

/-- The frame after `if (boom) { FastLED.clear(); boom = false; } else { fadeAll(40); }`. -/
def fireworksFade (O : SparkOps) (boom : Bool) (leds : List CRGB) : List CRGB :=
  if boom = true then O.clear leds else O.fadeAll 40 leds

/-- The static `sparkLife` after `if (sparkLife > 0) sparkLife--;`. -/
def fireworksLife (sparkLife : Int) : Int :=
  if sparkLife > 0 then sparkLife - 1 else sparkLife

/-- The part of `fireworks` after the loop over the sparks:
`if (sparksDone == 0) gSkyburst = 1;` and the block under `if (gSkyburst)`; `g1` holds the
globals and `life` the static `sparkLife` before the loop, `lp` is what the loop left. -/
def fireworksFinish (L : Lib) (O : SparkOps) (d : FireworksDraws) (g1 : Globals) (life : Int)
    (lp : SparkLoop) : FireworksCall :=
  let sky : Nat := if lp.sparksDone = 0 then 1 else g1.gSkyburst
  if sky ≠ 0 then
    let color := L.hsv (d.hue % 256) 255 255
    let sx := (d.sx <<< 8) % 65536
    let sy := (d.sy <<< 8) % 65536
    { globals := { g1 with effectDelay := 5, gSkyburst := 0,
                           gSparks := lp.sparks.enum.map (fun bs =>
                             O.Skyburst (d.seeds bs.1) sx sy 0 color bs.2),
                           leds := L.fillAll CRGB.Gray lp.leds },
      vars := { sparkLife := (d.life : Int), boom := true },
      sparksDone := lp.sparksDone, moved := lp.moved, burst := true }
  else
    { globals := { g1 with gSkyburst := sky, gSparks := lp.sparks, leds := lp.leds },
      vars := { sparkLife := life, boom := false },
      sparksDone := lp.sparksDone, moved := lp.moved, burst := false }

/-- One call of `fireworks()` with everything it does recorded; `none` when the loop over
the sparks does not end. -/
def fireworksRun (L : Lib) (O : SparkOps) (d : FireworksDraws) (g : Globals)
    (v : FireworksVars) : Option FireworksCall :=
  (sparkLoop O (fireworksLife v.sparkLife) (fireworksStart g).gSparks
      (fireworksFade O v.boom (fireworksStart g).leds)).map
    (fireworksFinish L O d (fireworksStart g) (fireworksLife v.sparkLife))

/-- Routine `fireworks()`: the globals and the statics after one call. -/
def fireworks (L : Lib) (O : SparkOps) (d : FireworksDraws) (g : Globals)
    (v : FireworksVars) : Option (Globals × FireworksVars) :=
  (fireworksRun L O d g v).map (fun c => (c.globals, c.vars))

/-- The state after `k` successive calls of `fireworks`; `ds i` holds the random numbers
of call number `i`, the first call being call number 0. -/
def fireworksCalls (L : Lib) (O : SparkOps) (ds : Nat → FireworksDraws) :
    Nat → Globals × FireworksVars → Option (Globals × FireworksVars)
  | 0, s => some s
  | k + 1, s => (fireworksCalls L O ds k s).bind (fun t => fireworks L O (ds k) t.1 t.2)

/-- Call number `k` of a sequence of calls of `fireworks` (the first is call number 0),
with what it does. -/
def fireworksNth (L : Lib) (O : SparkOps) (ds : Nat → FireworksDraws) (k : Nat)
    (s : Globals × FireworksVars) : Option FireworksCall :=
  (fireworksCalls L O ds k s).bind (fun t => fireworksRun L O (ds k) t.1 t.2)

/-! ## A concrete instance of the external functions -/

/-- A concrete choice of the external functions, on which the routines can be evaluated.
Its message is three characters long. -/
def sampleLib : Lib where
  sin8 := fun t => t
  triwave8 := fun t => if t < 128 then 2 * t else 2 * (255 - t)
  qmul8 := fun i j => min (i * j) 255
  hsv := fun h s v => ⟨h, s, v⟩
  RainbowColors_p := List.replicate 16 ⟨255, 0, 0⟩
  ColorFromPalette := fun pal i _ => paletteEntry pal (i / 16)
  fadeToBlackBy := fun leds _ _ => leds.map (fun _ => CRGB.Black)
  nscale8 := fun c k => ⟨c.r * k / 256, c.g * k / 256, c.b * k / 256⟩
  scrollArray := fun _ leds => leds
  fillAll := fun c leds => leds.map (fun _ => c)
  loadStringChar := fun _ i => if i < 3 then 65 else 0
  loadCharBuffer := fun _ => [31, 5, 5, 31, 0]
  colorCycle := fun _ k => (CRGB.White, k + 1)
  cyclePattern := fun g => { g with effectInit := false }
  NORMAL := 0
  RAINBOW := 1
  PALETTEWORDS := 2
  CANDYCANE := 3
  HOLLY := 4
  HOLLY2 := 5

/-- The same external functions with a message of 256 characters. -/
def longMessageLib : Lib :=
  { sampleLib with loadStringChar := fun _ i => if i < 256 then 65 else 0 }

/-- A concrete choice of the functions used by `fireworks`: a spark moves by its
velocity and dies when it leaves the grid, and is painted into its cell while alive. -/
def sampleSparkOps : SparkOps where
  Move := fun s =>
    if s.show = 0 then s
    else
      let y := (Int.toNat ((s.y : Int) + s.yv)) % 65536
      let x := (Int.toNat ((s.x : Int) + s.xv)) % 65536
      { s with x := x, y := y, yv := s.yv - 4, «show» := if y / 256 ≥ 16 then 0 else s.show }
  Draw := fun s leds =>
    if s.show = 0 then (s, leds) else (s, setLed leds (XY (s.x / 256) (s.y / 256)) s.color)
  Skyburst := fun seed sx sy dv c s =>
    { s with x := sx, y := sy, xv := (seed % 64 : Nat) - 32 + dv, yv := (seed % 32 : Nat),
             color := c, «show» := 1 }
  fadeAll := fun _ leds => leds.map (fun c => ⟨c.r / 2, c.g / 2, c.b / 2⟩)
  clear := fun leds => leds.map (fun _ => CRGB.Black)

/-- A concrete choice of the functions used by `fireworks` in which `Move()` and
`Draw()` leave the flag `show` alone. -/
def steadySparkOps : SparkOps :=
  { sampleSparkOps with
    Move := fun s => { s with x := (Int.toNat ((s.x : Int) + s.xv)) % 65536 }
    Draw := fun s leds => (s, leds) }

/-- Random numbers for a call of `fireworks`: a burst that lives `life` calls. -/
def sampleDraws (life : Nat) : FireworksDraws :=
  { life := life, hue := 40, sx := 127, sy := 127, seeds := fun b => 17 * b + 5 }

/-- Globals before a first call of `fireworks`: a pool of three sparks. -/
def sampleSparkGlobals : Globals := { effectInit := false, gSparks := [{ }, { }, { }] }

/-- Random numbers for successive calls of `fireworks`: a burst drawn by call number 0
lives 20 calls, one drawn by a later call 30. -/
def sampleDrawsSeq : Nat → FireworksDraws :=
  fun i => if i = 0 then sampleDraws 20 else sampleDraws 30

/-- A state before a first call of `colorFill`, with counters left by an earlier run. -/
def sampleFillStart : Globals × ColorFillVars :=
  ({ effectInit := false, effectDelay := 7 }, ⟨3, 9, 2⟩)

/-- Values of `random8(3, 6)` for successive calls of `colorFill`: 3, 4, 5, 3, ... -/
def sampleRnds : Nat → Nat := fun i => 3 + i % 3

/-! ## Properties of XYmap.h -/

set_option maxRecDepth 100000 in
theorem XYTable_length : XYTable.length = 256 := by decide

set_option maxRecDepth 100000 in
theorem XYTable_entry (x y : Nat) (hx : x < 16) (hy : y < 16) :
    XYTable[y * 16 + x]? = some (16 * x + y) := by
  interval_cases x <;> interval_cases y <;> rfl

theorem XY2Run_in_range (x y : Nat) (hx : x < 16) (hy : y < 16) :
    XY2Run x y = { lookup := some (y * 16 + x), ret := some (16 * x + y) } := by
  have hpos : (y * 16 + x) % 256 = y * 16 + x := by omega
  have hval : (16 * x + y) % 256 = 16 * x + y := by omega
  have hc : ¬ (x ≥ 16 ∨ y ≥ 16) := by omega
  simp only [XY2Run, kMatrixWidth, kMatrixHeight, if_neg hc, hpos, XYTable_entry x y hx hy,
    Option.map_some', hval]

theorem XY2_in_range_value (x y : Nat) (hx : x < 16) (hy : y < 16) :
    XY2 x y = some (16 * x + y) := by
  simp [XY2, XY2Run_in_range x y hx hy]

/-- C1: for 8-bit coordinates with `x >= 16` or `y >= 16`, `XY2` returns exactly the
sentinel `LAST_VISIBLE_LED + 1 = 256` and reads no table entry; in particular
`XY2(16,0) = 256` and `XY2(0,16) = 256`. -/
theorem XY2_out_of_range_sentinel (x y : Nat) (_hx : x < 256) (_hy : y < 256)
    (h : x ≥ 16 ∨ y ≥ 16) :
    XY2 x y = some (LAST_VISIBLE_LED + 1) ∧ LAST_VISIBLE_LED + 1 = 256 ∧
      (XY2Run x y).lookup = none ∧ XY2 16 0 = some 256 ∧ XY2 0 16 = some 256 := by
  have hc : x ≥ kMatrixWidth ∨ y ≥ kMatrixHeight := h
  refine ⟨?_, rfl, ?_, by decide, by decide⟩
  · simp only [XY2, XY2Run, if_pos hc]
  · simp only [XY2Run, if_pos hc]

theorem XY2_out_of_range_sentinel_witness :
    XY2 200 3 = some (LAST_VISIBLE_LED + 1) ∧ LAST_VISIBLE_LED + 1 = 256 ∧
      (XY2Run 200 3).lookup = none ∧ XY2 16 0 = some 256 ∧ XY2 0 16 = some 256 :=
  XY2_out_of_range_sentinel 200 3 (by decide) (by decide) (Or.inl (by decide))

/-- C2: for `x < 16` and `y < 16`, `XY2(x, y)` is `XYTable[y*16 + x]`, the position
`y*16 + x` is the one read (it does not wrap in 8 bits) and lies inside the
256-entry table, and the result is a visible index, at most `LAST_VISIBLE_LED`;
in particular `XY2(0,0) = 0` and `XY2(15,15) = 255`. -/
theorem XY2_in_range_lookup (x y : Nat) (hx : x < 16) (hy : y < 16) :
    XY2 x y = XYTable[y * 16 + x]? ∧
      (XY2Run x y).lookup = some (y * 16 + x) ∧
      y * 16 + x < XYTable.length ∧ XYTable.length = 256 ∧
      (∃ j, XY2 x y = some j ∧ j < 256 ∧ j ≤ LAST_VISIBLE_LED) ∧
      XY2 0 0 = some 0 ∧ XY2 15 15 = some 255 := by
  refine ⟨?_, ?_, ?_, XYTable_length, ⟨16 * x + y, XY2_in_range_value x y hx hy, ?_, ?_⟩,
    XY2_in_range_value 0 0 (by decide) (by decide),
    XY2_in_range_value 15 15 (by decide) (by decide)⟩
  · rw [XY2_in_range_value x y hx hy, XYTable_entry x y hx hy]
  · rw [XY2Run_in_range x y hx hy]
  · rw [XYTable_length]; omega
  · omega
  · simp only [LAST_VISIBLE_LED]; omega

theorem XY2_in_range_lookup_witness :
    XY2 3 5 = XYTable[5 * 16 + 3]? ∧
      (XY2Run 3 5).lookup = some (5 * 16 + 3) ∧
      5 * 16 + 3 < XYTable.length ∧ XYTable.length = 256 ∧
      (∃ j, XY2 3 5 = some j ∧ j < 256 ∧ j ≤ LAST_VISIBLE_LED) ∧
      XY2 0 0 = some 0 ∧ XY2 15 15 = some 255 :=
  XY2_in_range_lookup 3 5 (by decide) (by decide)

set_option maxRecDepth 1000000 in
/-- C3: the sentinel returned by `XY2` for an out-of-range coordinate is not a position
of the frame buffer: `XY2(16, 0)` is 256, which equals `NUM_LEDS`, the number of cells
`leds` is declared with, so it is not strictly below it and `leds[256]` is no cell. -/
theorem XY2_sentinel_equals_NUM_LEDS :
    XY2 16 0 = some 256 ∧ NUM_LEDS = 256 ∧ ¬ (256 < NUM_LEDS) ∧
      ({ } : Globals).leds.length = NUM_LEDS ∧ ({ } : Globals).leds[256]? = none ∧
      ¬ (∀ x y : Nat, x < 256 → y < 256 → ∃ j, XY2 x y = some j ∧ j < NUM_LEDS) := by
  refine ⟨by decide, by decide, by decide, by decide, by decide, ?_⟩
  intro hall
  obtain ⟨j, hj, hlt⟩ := hall 16 0 (by decide) (by decide)
  have h16 : XY2 16 0 = some 256 := by decide
  rw [h16] at hj
  have hj2 : j = 256 := (Option.some.inj hj).symm
  rw [hj2] at hlt
  exact absurd hlt (by decide)

/-- C4: the trivial mapper `XY` has no bounds check: its result is an 8-bit value, so it
is never above `LAST_VISIBLE_LED`; the out-of-range coordinates `(16, 0)` and `(0, 16)`
address the visible cells 16 and 0, the cells of `(0, 1)` and `(0, 0)`. -/
theorem XY_never_above_LAST_VISIBLE_LED :
    (∀ x y : Nat, XY x y ≤ LAST_VISIBLE_LED) ∧
      XY 16 0 = 16 ∧ XY 16 0 = XY 0 1 ∧ XY 0 16 = 0 ∧ XY 0 16 = XY 0 0 ∧
      ¬ (XY 16 0 > LAST_VISIBLE_LED) := by
  refine ⟨?_, by decide, by decide, by decide, by decide, by decide⟩
  intro x y
  simp only [XY, LAST_VISIBLE_LED]
  omega

set_option maxRecDepth 100000 in
theorem XYTable_entries_lt : ∀ v ∈ XYTable, v < 256 := by decide

/-- C5: every entry of `XYTable` lies in `[0, 256)`; every physical index `p < 256` is
`XY2(x, y)` for some in-range `(x, y)`; and `XY2` is injective on the in-range
rectangle, so it is a bijection from the 256 in-range coordinates onto `[0, 256)`. -/
theorem XY2_bijective_on_grid :
    (∀ v ∈ XYTable, v < 256) ∧
      (∀ p : Nat, p < 256 → ∃ x y : Nat, x < 16 ∧ y < 16 ∧ XY2 x y = some p) ∧
      (∀ x y x2 y2 : Nat, x < 16 → y < 16 → x2 < 16 → y2 < 16 →
        XY2 x y = XY2 x2 y2 → x = x2 ∧ y = y2) ∧
      (∀ x y : Nat, x < 16 → y < 16 → ∃ p, p < 256 ∧ XY2 x y = some p) := by
  refine ⟨XYTable_entries_lt, ?_, ?_, ?_⟩
  · intro p hp
    refine ⟨p / 16, p % 16, by omega, by omega, ?_⟩
    rw [XY2_in_range_value (p / 16) (p % 16) (by omega) (by omega)]
    congr 1
    omega
  · intro x y x2 y2 hx hy hx2 hy2 h
    rw [XY2_in_range_value x y hx hy, XY2_in_range_value x2 y2 hx2 hy2] at h
    have h2 : 16 * x + y = 16 * x2 + y2 := Option.some.inj h
    omega
  · intro x y hx hy
    exact ⟨16 * x + y, by omega, XY2_in_range_value x y hx hy⟩

theorem XY2_bijective_on_grid_witness :
    (∃ x y : Nat, x < 16 ∧ y < 16 ∧ XY2 x y = some 37) ∧
      (XY2 2 5 = XY2 2 5 → 2 = 2 ∧ 5 = 5) :=
  ⟨XY2_bijective_on_grid.2.1 37 (by decide),
    XY2_bijective_on_grid.2.2.1 2 5 2 5 (by decide) (by decide) (by decide) (by decide)⟩

theorem deg_of_nonneg (i : Int) (h : 0 ≤ i) : deg i = i / 16 + i % 16 * 16 := by
  unfold deg
  rw [Int.tdiv_eq_ediv h (by decide), Int.tmod_eq_emod (by omega) (by decide),
    Int.add_emod_self]

/-- C6: restricted to `0 <= i < 256`, `deg` is a bijection of `[0, 256)` onto itself:
`deg i` is in `[0, 256)`, `deg i = deg j` implies `i = j`, and every index of the range
is `deg k` for some `k` of the range. -/
theorem deg_bijective_on_grid (i j : Int) (hi : 0 ≤ i ∧ i < 256) (hj : 0 ≤ j ∧ j < 256) :
    (0 ≤ deg i ∧ deg i < 256) ∧ (deg i = deg j → i = j) ∧
      (∃ k : Int, 0 ≤ k ∧ k < 256 ∧ deg k = i) := by
  rw [deg_of_nonneg i hi.1, deg_of_nonneg j hj.1]
  refine ⟨by omega, by omega, ⟨i / 16 + i % 16 * 16, by omega, by omega, ?_⟩⟩
  rw [deg_of_nonneg _ (by omega)]
  omega

theorem deg_bijective_on_grid_witness :
    (0 ≤ deg 37 ∧ deg 37 < 256) ∧ (deg 37 = deg 82 → (37 : Int) = 82) ∧
      (∃ k : Int, 0 ≤ k ∧ k < 256 ∧ deg k = 37) :=
  deg_bijective_on_grid 37 82 (by decide) (by decide)

/-- C7: `deg` swaps the two grid axes of a row-major index: for `x < 16` and `y < 16`,
`deg(XY(x, y)) = XY(y, x)`, where `XY(x, y) = y*16 + x`. -/
theorem deg_XY_swaps_axes (x y : Nat) (hx : x < 16) (hy : y < 16) :
    deg (XY x y : Nat) = (XY y x : Nat) ∧ XY x y = y * 16 + x := by
  have h1 : XY x y = y * 16 + x := by simp only [XY, kMatrixWidth]; omega
  have h2 : XY y x = x * 16 + y := by simp only [XY, kMatrixWidth]; omega
  refine ⟨?_, h1⟩
  rw [deg_of_nonneg _ (by omega), h1, h2]
  push_cast
  omega

theorem deg_XY_swaps_axes_witness :
    deg (XY 3 5 : Nat) = (XY 5 3 : Nat) ∧ XY 3 5 = 5 * 16 + 3 :=
  deg_XY_swaps_axes 3 5 (by decide) (by decide)

/-! ## Properties of the effect routines -/

/-- C8: `flash` and `matrixConsole` never examine or assign `effectInit` and never assign
`effectDelay`: both variables come out of a call as they went in, so a call of `flash`
with `effectInit = false` returns with `effectInit` still false and with the
`effectDelay` of the routine that ran before. -/
theorem flash_matrixConsole_leave_effectInit :
    (∀ (L : Lib) (number : Nat) (g : Globals),
        (flash L number g).effectInit = g.effectInit ∧
        (flash L number g).effectDelay = g.effectDelay) ∧
      (∀ (L : Lib) (due : Bool) (rnd3 spawnX : Nat) (g : Globals),
        (matrixConsole L due rnd3 spawnX g).effectInit = g.effectInit ∧
        (matrixConsole L due rnd3 spawnX g).effectDelay = g.effectDelay) ∧
      (flash sampleLib 7 { effectInit := false, effectDelay := 20 }).effectInit = false ∧
      (flash sampleLib 7 { effectInit := false, effectDelay := 20 }).effectDelay = 20 := by
  refine ⟨fun L number g => ⟨rfl, rfl⟩, ?_, rfl, rfl⟩
  intro L due rnd3 spawnX g
  cases due
  · exact ⟨rfl, rfl⟩
  · exact ⟨rfl, rfl⟩

set_option maxRecDepth 1000000 in
/-- C9 (as stated, refuted for `threeSine`): `threeSine` does not reset `sineOffset` in
its startup block, so two calls with `effectInit = false` on the same globals that start
from `sineOffset = 0` and from `sineOffset = 5` end with different counters, 1 and 6, and
(with the sample external functions) with different colours in cell 0 of the frame. -/
theorem threeSine_reinit_keeps_sineOffset :
    (threeSine sampleLib { effectInit := false } 0).2 = 1 ∧
      (threeSine sampleLib { effectInit := false } 5).2 = 6 ∧
      (threeSine sampleLib { effectInit := false } 0).1.leds[0]? = some ⟨255, 255, 255⟩ ∧
      (threeSine sampleLib { effectInit := false } 5).1.leds[0]? = some ⟨165, 155, 145⟩ ∧
      ¬ (∀ (L : Lib) (g : Globals) (a b : Nat), a < 256 → b < 256 → g.effectInit = false →
          threeSine L g a = threeSine L g b) := by
  refine ⟨rfl, rfl, by decide, by decide, ?_⟩
  intro hall
  have h := hall sampleLib { effectInit := false } 0 5 (by decide) (by decide) rfl
  have h2 : (threeSine sampleLib { effectInit := false } 0).2
      = (threeSine sampleLib { effectInit := false } 5).2 := by rw [h]
  exact absurd h2 (by decide)

/-- C9 (amended): for `rider` and `colorFill`, one call with `effectInit = false` gives
the same globals (frame buffer, `effectDelay`, ...) and the same resulting static
counters whatever values the counters held before, for the same external inputs.
`threeSine` resets nothing: its call with `effectInit = false` always ends with
`effectInit = true` and `effectDelay = 20`, and with `sineOffset` one more (mod 256)
than the value left by the previous activation. -/
theorem reinit_deterministic (L : Lib) (rnd : Nat) (g : Globals) (a b : Nat)
    (v w : ColorFillVars) (h : g.effectInit = false) :
    rider L g a = rider L g b ∧
      colorFill L rnd g v = colorFill L rnd g w ∧
      (threeSine L g a).1.effectInit = true ∧ (threeSine L g a).1.effectDelay = 20 ∧
      (threeSine L g a).2 = (a + 1) % 256 := by
  refine ⟨?_, ?_, ?_, ?_, rfl⟩
  · simp only [rider, h, if_true]
  · simp only [colorFill, h, if_true]
  · simp only [threeSine, h, if_true]
  · simp only [threeSine, h, if_true]

theorem reinit_deterministic_witness :
    rider sampleLib { effectInit := false } 3 = rider sampleLib { effectInit := false } 200 ∧
      colorFill sampleLib 4 { effectInit := false } ⟨7, 9, 2⟩
        = colorFill sampleLib 4 { effectInit := false } ⟨1, 15, 3⟩ ∧
      (threeSine sampleLib { effectInit := false } 3).1.effectInit = true ∧
      (threeSine sampleLib { effectInit := false } 3).1.effectDelay = 20 ∧
      (threeSine sampleLib { effectInit := false } 3).2 = (3 + 1) % 256 :=
  reinit_deterministic sampleLib 4 { effectInit := false } 3 200 ⟨7, 9, 2⟩ ⟨1, 15, 3⟩ rfl

/-! ### scrollText: one call -/

theorem scrollTextColor_control (L : Lib) (style nextChar : Nat) (g : Globals)
    (v : ScrollTextVars) :
    (scrollTextColor L style nextChar g v).1.effectInit = g.effectInit ∧
      (scrollTextColor L style nextChar g v).1.repCount = g.repCount ∧
      (scrollTextColor L style nextChar g v).1.cyclePatternCalls = g.cyclePatternCalls ∧
      (scrollTextColor L style nextChar g v).2.currentMessageChar = v.currentMessageChar ∧
      (scrollTextColor L style nextChar g v).2.currentCharColumn = v.currentCharColumn := by
  unfold scrollTextColor
  split_ifs <;> exact ⟨rfl, rfl, rfl, rfl, rfl⟩

/-- A call that does not finish the glyph only moves to the next column. -/
theorem scrollTextAdvance_column (L : Lib) (message style : Nat) (g : Globals)
    (v : ScrollTextVars) (h : v.currentCharColumn < 6) :
    scrollTextAdvance L message style g v
      = (g, { v with currentCharColumn := v.currentCharColumn + 1 }) := by
  have h1 : (v.currentCharColumn + 1) % 256 = v.currentCharColumn + 1 := by omega
  have h2 : ¬ (v.currentCharColumn + 1 > 4 + charSpacing) := by
    simp only [charSpacing]; omega
  simp only [scrollTextAdvance, h1, if_neg h2]

/-- After the last column, when the next character is not the terminator, the call moves
to that character. -/
theorem scrollTextAdvance_char (L : Lib) (message style : Nat) (g : Globals)
    (v : ScrollTextVars) (h : v.currentCharColumn = 6)
    (hc : loadChar L message ((v.currentMessageChar + 1) % 256) ≠ 0) :
    (scrollTextAdvance L message style g v).1.effectInit = g.effectInit ∧
      (scrollTextAdvance L message style g v).1.repCount = g.repCount ∧
      (scrollTextAdvance L message style g v).1.cyclePatternCalls = g.cyclePatternCalls ∧
      (scrollTextAdvance L message style g v).2.currentMessageChar
        = (v.currentMessageChar + 1) % 256 ∧
      (scrollTextAdvance L message style g v).2.currentCharColumn = 0 := by
  have h2 : (v.currentCharColumn + 1) % 256 > 4 + charSpacing := by
    rw [h]; decide
  simp only [scrollTextAdvance, if_pos h2, if_neg hc]
  exact scrollTextColor_control L style _ g _

/-- After the last column, at the terminator, with more than one repeat left, the call
goes back to the first character and counts one repeat down, without `cyclePattern`. -/
theorem scrollTextAdvance_repeat (L : Lib) (message style : Nat) (g : Globals)
    (v : ScrollTextVars) (h : v.currentCharColumn = 6)
    (hc : loadChar L message ((v.currentMessageChar + 1) % 256) = 0)
    (hrep : 1 < g.repCount) :
    (scrollTextAdvance L message style g v).1.effectInit = g.effectInit ∧
      (scrollTextAdvance L message style g v).1.repCount = g.repCount - 1 ∧
      (scrollTextAdvance L message style g v).1.cyclePatternCalls = g.cyclePatternCalls ∧
      (scrollTextAdvance L message style g v).2.currentMessageChar = 0 ∧
      (scrollTextAdvance L message style g v).2.currentCharColumn = 0 := by
  have h2 : (v.currentCharColumn + 1) % 256 > 4 + charSpacing := by
    rw [h]; decide
  have h3 : g.repCount > 0 := by omega
  have h4 : ¬ (g.repCount - 1 = 0) := by omega
  simp only [scrollTextAdvance, if_pos h2, hc, if_true, scrollTextEnd, if_pos h3, if_neg h4]
  exact scrollTextColor_control L style _ _ _

theorem scrollTextEnd_cycle (L : Lib) (g : Globals) (v : ScrollTextVars)
    (hrep : g.repCount ≤ 1) :
    (scrollTextEnd L g v).1.cyclePatternCalls = g.cyclePatternCalls + 1 ∧
      ((∀ x : Globals, (L.cyclePattern x).repCount = x.repCount) →
        (scrollTextEnd L g v).1.repCount = 0) ∧
      (scrollTextEnd L g v).2.currentMessageChar = 0 ∧
      (scrollTextEnd L g v).2.currentCharColumn = v.currentCharColumn := by
  unfold scrollTextEnd cyclePatternCall
  by_cases h0 : g.repCount > 0
  · have h1 : g.repCount - 1 = 0 := by omega
    simp only [if_pos h0, h1, if_true]
    refine ⟨trivial, fun hx => ?_, trivial, trivial⟩
    rw [hx]
  · have h1 : g.repCount = 0 := by omega
    simp only [if_neg h0, if_pos h1]
    refine ⟨trivial, fun hx => ?_, trivial, trivial⟩
    rw [hx, h1]

/-- After the last column, at the terminator, with at most one repeat left, the call
calls `cyclePattern` once. -/
theorem scrollTextAdvance_cycle (L : Lib) (message style : Nat) (g : Globals)
    (v : ScrollTextVars) (h : v.currentCharColumn = 6)
    (hc : loadChar L message ((v.currentMessageChar + 1) % 256) = 0)
    (hrep : g.repCount ≤ 1) :
    (scrollTextAdvance L message style g v).1.cyclePatternCalls = g.cyclePatternCalls + 1 ∧
      ((∀ x : Globals, (L.cyclePattern x).repCount = x.repCount) →
        (scrollTextAdvance L message style g v).1.repCount = 0) ∧
      (scrollTextAdvance L message style g v).2.currentMessageChar = 0 ∧
      (scrollTextAdvance L message style g v).2.currentCharColumn = 0 := by
  have h2 : (v.currentCharColumn + 1) % 256 > 4 + charSpacing := by
    rw [h]; decide
  simp only [scrollTextAdvance, if_pos h2, hc, if_true]
  obtain ⟨e1, e2, e3, e4⟩ := scrollTextEnd_cycle L g
    { v with currentCharColumn := 0, currentMessageChar := (v.currentMessageChar + 1) % 256 } hrep
  obtain ⟨-, c2, c3, c4, c5⟩ := scrollTextColor_control L style
    (loadChar L message (scrollTextEnd L g
      { v with currentCharColumn := 0,
               currentMessageChar := (v.currentMessageChar + 1) % 256 }).2.currentMessageChar)
    (scrollTextEnd L g
      { v with currentCharColumn := 0,
               currentMessageChar := (v.currentMessageChar + 1) % 256 }).1
    (scrollTextEnd L g
      { v with currentCharColumn := 0,
               currentMessageChar := (v.currentMessageChar + 1) % 256 }).2
  exact ⟨c3.trans e1, fun hx => c2.trans (e2 hx), c4.trans e3, c5.trans e4⟩

/-- The first call, with `effectInit = false`: the startup block runs and the call ends
in column 1 of the first character, with `repCount = repeats`. -/
theorem scrollText_first (L : Lib) (message style : Nat) (fgColor bgColor : CRGB)
    (repeats : Nat) (g : Globals) (v : ScrollTextVars) (h : g.effectInit = false) :
    (scrollText L message style fgColor bgColor repeats g v).1.effectInit = true ∧
      (scrollText L message style fgColor bgColor repeats g v).1.effectDelay = 35 ∧
      (scrollText L message style fgColor bgColor repeats g v).1.repCount = repeats ∧
      (scrollText L message style fgColor bgColor repeats g v).1.cyclePatternCalls
        = g.cyclePatternCalls ∧
      (scrollText L message style fgColor bgColor repeats g v).2.currentMessageChar = 0 ∧
      (scrollText L message style fgColor bgColor repeats g v).2.currentCharColumn = 1 := by
  simp only [scrollText, h, if_true]
  rw [scrollTextAdvance_column L message style _ _ (by simp [scrollTextDraw, scrollTextInit])]
  exact ⟨rfl, rfl, rfl, rfl, rfl, rfl⟩

/-- A later call, with `effectInit = true`, is the drawing part followed by the advance. -/
theorem scrollText_later (L : Lib) (message style : Nat) (fgColor bgColor : CRGB)
    (repeats : Nat) (g : Globals) (v : ScrollTextVars) (h : g.effectInit = true) :
    scrollText L message style fgColor bgColor repeats g v
      = scrollTextAdvance L message style (scrollTextDraw L style bgColor g v).1
          (scrollTextDraw L style bgColor g v).2 := by
  simp only [scrollText, h, Bool.true_eq_false, if_false]


/-! ### scrollText: successive calls -/

theorem scrollTextDraw_control (L : Lib) (style : Nat) (bgColor : CRGB) (g : Globals)
    (v : ScrollTextVars) :
    (scrollTextDraw L style bgColor g v).1.effectInit = g.effectInit ∧
      (scrollTextDraw L style bgColor g v).1.repCount = g.repCount ∧
      (scrollTextDraw L style bgColor g v).1.cyclePatternCalls = g.cyclePatternCalls ∧
      (scrollTextDraw L style bgColor g v).2.currentMessageChar = v.currentMessageChar ∧
      (scrollTextDraw L style bgColor g v).2.currentCharColumn = v.currentCharColumn := by
  simp only [scrollTextDraw, and_self]

theorem scrollTextRun_succ (L : Lib) (message style : Nat) (fgColor bgColor : CRGB)
    (repeats k : Nat) (s : Globals × ScrollTextVars) :
    scrollTextRun L message style fgColor bgColor repeats (k + 1) s
      = scrollText L message style fgColor bgColor repeats
          (scrollTextRun L message style fgColor bgColor repeats k s).1
          (scrollTextRun L message style fgColor bgColor repeats k s).2 := rfl

/-- The state reached after `k >= 1` calls, as long as the `r`-th end of the string has
not been reached: `k = 7 * (n * e + c) + j` calls leave the routine in column `j` of
character `c`, with `e` repeats done. -/
theorem scrollTextRun_progress (L : Lib) (message style : Nat) (fgColor bgColor : CRGB)
    (r n : Nat) (g0 : Globals) (v0 : ScrollTextVars) (hinit : g0.effectInit = false)
    (hn : 1 ≤ n) (hn8 : n ≤ 255) (hmsg : ∀ i, i < n → loadChar L message i ≠ 0)
    (hend : loadChar L message n = 0) :
    ∀ k e c j : Nat, k = 7 * (n * e + c) + j → 1 ≤ k → e < r → c < n → j < 7 →
      (scrollTextRun L message style fgColor bgColor r k (g0, v0)).1.effectInit = true ∧
      (scrollTextRun L message style fgColor bgColor r k (g0, v0)).1.repCount = r - e ∧
      (scrollTextRun L message style fgColor bgColor r k (g0, v0)).1.cyclePatternCalls
        = g0.cyclePatternCalls ∧
      (scrollTextRun L message style fgColor bgColor r k (g0, v0)).2.currentMessageChar = c ∧
      (scrollTextRun L message style fgColor bgColor r k (g0, v0)).2.currentCharColumn = j := by
  intro k
  induction k with
  | zero => intro e c j _ h1; omega
  | succ k ih =>
    intro e c j hk _ he hc hj
    by_cases hk0 : k = 0
    · subst hk0
      have hj1 : j = 1 := by omega
      have hc0 : c = 0 := by omega
      have hne : n * e = 0 := by omega
      have he0 : e = 0 := by
        rcases Nat.mul_eq_zero.mp hne with h | h
        · omega
        · exact h
      subst hj1 hc0 he0
      obtain ⟨f1, -, f3, f4, f5, f6⟩ :=
        scrollText_first L message style fgColor bgColor r g0 v0 hinit
      exact ⟨f1, f3, f4, f5, f6⟩
    · have hk1 : 1 ≤ k := by omega
      rw [scrollTextRun_succ]
      generalize scrollTextRun L message style fgColor bgColor r k (g0, v0) = S at ih ⊢
      obtain ⟨d1, d2, d3, d4, d5⟩ := scrollTextDraw_control L style bgColor S.1 S.2
      by_cases hj0 : j = 0
      · by_cases hc0 : c = 0
        · subst hj0 hc0
          obtain ⟨e2, rfl⟩ : ∃ e2, e = e2 + 1 := by
            cases e with
            | zero => omega
            | succ e2 => exact ⟨e2, rfl⟩
          rw [Nat.mul_succ] at hk
          obtain ⟨i1, i2, i3, i4, i5⟩ := ih e2 (n - 1) 6 (by omega) hk1 (by omega) (by omega)
            (by omega)
          rw [scrollText_later L message style fgColor bgColor r S.1 S.2 i1]
          have hterm : loadChar L message
              (((scrollTextDraw L style bgColor S.1 S.2).2.currentMessageChar + 1) % 256) = 0 := by
            rw [d4, i4]
            have : (n - 1 + 1) % 256 = n := by omega
            rw [this]; exact hend
          obtain ⟨a1, a2, a3, a4, a5⟩ := scrollTextAdvance_repeat L message style
            (scrollTextDraw L style bgColor S.1 S.2).1 (scrollTextDraw L style bgColor S.1 S.2).2
            (d5.trans i5) hterm (by rw [d2, i2]; omega)
          refine ⟨a1.trans (d1.trans i1), ?_, a3.trans (d3.trans i3), a4, a5⟩
          rw [a2, d2, i2]; omega
        · subst hj0
          obtain ⟨i1, i2, i3, i4, i5⟩ := ih e (c - 1) 6 (by omega) hk1 he (by omega) (by omega)
          rw [scrollText_later L message style fgColor bgColor r S.1 S.2 i1]
          have hnext : ((scrollTextDraw L style bgColor S.1 S.2).2.currentMessageChar + 1) % 256
              = c := by
            rw [d4, i4]; omega
          have hchar : loadChar L message
              (((scrollTextDraw L style bgColor S.1 S.2).2.currentMessageChar + 1) % 256) ≠ 0 := by
            rw [hnext]; exact hmsg c hc
          obtain ⟨a1, a2, a3, a4, a5⟩ := scrollTextAdvance_char L message style
            (scrollTextDraw L style bgColor S.1 S.2).1 (scrollTextDraw L style bgColor S.1 S.2).2
            (d5.trans i5) hchar
          exact ⟨a1.trans (d1.trans i1), a2.trans (d2.trans i2), a3.trans (d3.trans i3),
            a4.trans hnext, a5⟩
      · obtain ⟨i1, i2, i3, i4, i5⟩ := ih e c (j - 1) (by omega) hk1 he hc (by omega)
        rw [scrollText_later L message style fgColor bgColor r S.1 S.2 i1,
          scrollTextAdvance_column L message style _ _ (by rw [d5, i5]; omega)]
        refine ⟨d1.trans i1, d2.trans i2, d3.trans i3, d4.trans i4, ?_⟩
        show (scrollTextDraw L style bgColor S.1 S.2).2.currentCharColumn + 1 = j
        rw [d5, i5]; omega


theorem scrollTextAdvance_calls (L : Lib) (message style : Nat) (g : Globals)
    (v : ScrollTextVars) (hall : ∀ i, i < 256 → loadChar L message i ≠ 0) :
    (scrollTextAdvance L message style g v).1.cyclePatternCalls = g.cyclePatternCalls := by
  by_cases h : (v.currentCharColumn + 1) % 256 > 4 + charSpacing
  · have hc := hall ((v.currentMessageChar + 1) % 256) (Nat.mod_lt _ (by decide))
    simp only [scrollTextAdvance, if_pos h, if_neg hc]
    exact (scrollTextColor_control L style _ g _).2.2.1
  · simp only [scrollTextAdvance, if_neg h]

/-- With a message whose first 256 characters are all different from the terminator,
the 8-bit character counter wraps before it reaches the terminator, and no number of
calls ever calls `cyclePattern`. -/
theorem scrollTextRun_calls_of_long_message (L : Lib) (message style : Nat)
    (fgColor bgColor : CRGB) (repeats : Nat) (hall : ∀ i, i < 256 → loadChar L message i ≠ 0)
    (s : Globals × ScrollTextVars) (k : Nat) :
    (scrollTextRun L message style fgColor bgColor repeats k s).1.cyclePatternCalls
      = s.1.cyclePatternCalls := by
  induction k with
  | zero => rfl
  | succ k ih =>
    rw [scrollTextRun_succ, ← ih]
    generalize scrollTextRun L message style fgColor bgColor repeats k s = S
    unfold scrollText
    rw [scrollTextAdvance_calls L message style _ _ hall]
    by_cases h : S.1.effectInit = false
    · simp only [h, if_true, scrollTextDraw, scrollTextInit]
    · simp only [if_neg h, scrollTextDraw]

/-- C10 (as stated, refuted for long messages): with a message of `n = 256` characters and
`repeats = 1`, the claim puts the first call of `cyclePattern` on step `7 * 256 * 1`, but
the character counter is 8 bits wide and wraps to 0 before it reaches the terminator at
position 256: `cyclePattern` has not been called after `7 * 256 * 1` steps, nor after any
other number of steps. -/
theorem scrollText_long_message_never_cycles :
    (∀ i, i < 256 → loadChar longMessageLib 0 i ≠ 0) ∧ loadChar longMessageLib 0 256 = 0 ∧
      (scrollTextRun longMessageLib 0 0 CRGB.White CRGB.Black 1 (7 * 256 * 1)
        ({ effectInit := false }, { })).1.cyclePatternCalls = 0 ∧
      ∀ k : Nat, (scrollTextRun longMessageLib 0 0 CRGB.White CRGB.Black 1 k
        ({ effectInit := false }, { })).1.cyclePatternCalls = 0 := by
  have hall : ∀ i, i < 256 → loadChar longMessageLib 0 i ≠ 0 := by
    intro i hi
    simp [loadChar, longMessageLib, hi]
  exact ⟨hall, by decide,
    scrollTextRun_calls_of_long_message longMessageLib 0 0 CRGB.White CRGB.Black 1 hall _ _,
    fun k => scrollTextRun_calls_of_long_message longMessageLib 0 0 CRGB.White CRGB.Black 1
      hall _ k⟩

/-- C10 (amended): started with `effectInit = false`, `repeats = r` with `1 <= r <= 255`
and a message of `n` characters with `1 <= n <= 255`, `scrollText` advances one character
every 7 calls: after `k` calls, `1 <= k < 7*n*r`, it is in column `k % 7` of character
`(k / 7) % n`, `repCount` is `r - k / (7*n)`, one less for each end of string reached and
still at least 1, and `cyclePattern` has not been called. Call number `7*n*r` calls
`cyclePattern` for the first time, and leaves `repCount` at 0 when `cyclePattern` itself
does not change `repCount`. -/
theorem scrollText_cycles_after_repeats (L : Lib) (message style : Nat)
    (fgColor bgColor : CRGB) (r n : Nat) (g0 : Globals) (v0 : ScrollTextVars)
    (hinit : g0.effectInit = false) (hr : 1 ≤ r) (_hr8 : r ≤ 255) (hn : 1 ≤ n) (hn8 : n ≤ 255)
    (hmsg : ∀ i, i < n → loadChar L message i ≠ 0) (hend : loadChar L message n = 0) :
    (∀ k : Nat, 1 ≤ k → k < 7 * n * r →
        (scrollTextRun L message style fgColor bgColor r k (g0, v0)).1.cyclePatternCalls
          = g0.cyclePatternCalls ∧
        (scrollTextRun L message style fgColor bgColor r k (g0, v0)).2.currentCharColumn
          = k % 7 ∧
        (scrollTextRun L message style fgColor bgColor r k (g0, v0)).2.currentMessageChar
          = (k / 7) % n ∧
        (scrollTextRun L message style fgColor bgColor r k (g0, v0)).1.repCount
          = r - k / (7 * n) ∧
        1 ≤ (scrollTextRun L message style fgColor bgColor r k (g0, v0)).1.repCount) ∧
      (scrollTextRun L message style fgColor bgColor r (7 * n * r) (g0, v0)).1.cyclePatternCalls
        = g0.cyclePatternCalls + 1 ∧
      (scrollTextRun L message style fgColor bgColor r (7 * n * r) (g0, v0)).2.currentMessageChar
        = 0 ∧
      (scrollTextRun L message style fgColor bgColor r (7 * n * r) (g0, v0)).2.currentCharColumn
        = 0 ∧
      ((∀ x : Globals, (L.cyclePattern x).repCount = x.repCount) →
        (scrollTextRun L message style fgColor bgColor r (7 * n * r) (g0, v0)).1.repCount = 0) := by
  have hprog := scrollTextRun_progress L message style fgColor bgColor r n g0 v0 hinit hn hn8
    hmsg hend
  have hassoc : 7 * n * r = 7 * (n * r) := Nat.mul_assoc 7 n r
  constructor
  · intro k hk1 hk
    have hq : n * (k / 7 / n) + k / 7 % n = k / 7 := Nat.div_add_mod (k / 7) n
    have hqlt : k / 7 < r * n := by rw [Nat.mul_comm r n]; omega
    have he : k / 7 / n < r := (Nat.div_lt_iff_lt_mul (by omega)).mpr hqlt
    obtain ⟨-, p2, p3, p4, p5⟩ := hprog k (k / 7 / n) (k / 7 % n) (k % 7) (by omega) hk1 he
      (Nat.mod_lt _ (by omega)) (Nat.mod_lt _ (by decide))
    rw [Nat.div_div_eq_div_mul] at p2 he
    exact ⟨p3, p5, p4, p2, by omega⟩
  · obtain ⟨r2, rfl⟩ : ∃ r2, r = r2 + 1 := ⟨r - 1, by omega⟩
    have hlast : 7 * n * (r2 + 1) = (7 * (n * r2 + (n - 1)) + 6) + 1 := by
      rw [hassoc, Nat.mul_succ]; omega
    obtain ⟨p1, p2, p3, p4, p5⟩ := hprog (7 * (n * r2 + (n - 1)) + 6) r2 (n - 1) 6 rfl (by omega)
      (by omega) (by omega) (by decide)
    rw [hlast, scrollTextRun_succ]
    generalize scrollTextRun L message style fgColor bgColor (r2 + 1)
      (7 * (n * r2 + (n - 1)) + 6) (g0, v0) = S at p1 p2 p3 p4 p5 ⊢
    obtain ⟨-, d2, d3, d4, d5⟩ := scrollTextDraw_control L style bgColor S.1 S.2
    rw [scrollText_later L message style fgColor bgColor (r2 + 1) S.1 S.2 p1]
    have hterm : loadChar L message
        (((scrollTextDraw L style bgColor S.1 S.2).2.currentMessageChar + 1) % 256) = 0 := by
      rw [d4, p4]
      have : (n - 1 + 1) % 256 = n := by omega
      rw [this]; exact hend
    obtain ⟨a1, a2, a3, a4⟩ := scrollTextAdvance_cycle L message style
      (scrollTextDraw L style bgColor S.1 S.2).1 (scrollTextDraw L style bgColor S.1 S.2).2
      (d5.trans p5) hterm (by rw [d2, p2]; omega)
    exact ⟨by rw [a1, d3, p3], a3, a4, a2⟩

theorem scrollText_cycles_after_repeats_witness :
    (∀ k : Nat, 1 ≤ k → k < 7 * 3 * 2 →
        (scrollTextRun sampleLib 0 0 CRGB.White CRGB.Black 2 k
          ({ effectInit := false }, { })).1.cyclePatternCalls
          = ({ effectInit := false } : Globals).cyclePatternCalls ∧
        (scrollTextRun sampleLib 0 0 CRGB.White CRGB.Black 2 k
          ({ effectInit := false }, { })).2.currentCharColumn = k % 7 ∧
        (scrollTextRun sampleLib 0 0 CRGB.White CRGB.Black 2 k
          ({ effectInit := false }, { })).2.currentMessageChar = (k / 7) % 3 ∧
        (scrollTextRun sampleLib 0 0 CRGB.White CRGB.Black 2 k
          ({ effectInit := false }, { })).1.repCount = 2 - k / (7 * 3) ∧
        1 ≤ (scrollTextRun sampleLib 0 0 CRGB.White CRGB.Black 2 k
          ({ effectInit := false }, { })).1.repCount) ∧
      (scrollTextRun sampleLib 0 0 CRGB.White CRGB.Black 2 (7 * 3 * 2)
        ({ effectInit := false }, { })).1.cyclePatternCalls
        = ({ effectInit := false } : Globals).cyclePatternCalls + 1 ∧
      (scrollTextRun sampleLib 0 0 CRGB.White CRGB.Black 2 (7 * 3 * 2)
        ({ effectInit := false }, { })).2.currentMessageChar = 0 ∧
      (scrollTextRun sampleLib 0 0 CRGB.White CRGB.Black 2 (7 * 3 * 2)
        ({ effectInit := false }, { })).2.currentCharColumn = 0 ∧
      ((∀ x : Globals, (sampleLib.cyclePattern x).repCount = x.repCount) →
        (scrollTextRun sampleLib 0 0 CRGB.White CRGB.Black 2 (7 * 3 * 2)
          ({ effectInit := false }, { })).1.repCount = 0) :=
  scrollText_cycles_after_repeats sampleLib 0 0 CRGB.White CRGB.Black 2 3
    { effectInit := false } { } rfl (by decide) (by decide) (by decide) (by decide)
    (by decide) (by decide)

/-! ## The table of XY2 as an axis swap -/

set_option maxRecDepth 100000 in
/-- C14: the table of `XY2` is the axis swap of the trivial row-major mapping, not the
identity: for `x < 16` and `y < 16`, `XY2(x, y) = 16*x + y = XY(y, x) = deg(XY(x, y))`;
the entry at position 1 is 16, not 1. -/
theorem XY2_is_axis_swap (x y : Nat) (hx : x < 16) (hy : y < 16) :
    XY2 x y = some (16 * x + y) ∧ XY y x = 16 * x + y ∧
      deg ((XY x y : Nat) : Int) = ((16 * x + y : Nat) : Int) ∧
      XY2 x y = some (XY y x) ∧
      XYTable[1]? = some 16 ∧ XY2 1 0 = some 16 ∧ XY 1 0 = 1 := by
  have h1 : XY x y = y * 16 + x := by simp only [XY, kMatrixWidth]; omega
  have h2 : XY y x = 16 * x + y := by simp only [XY, kMatrixWidth]; omega
  refine ⟨XY2_in_range_value x y hx hy, h2, ?_, ?_, by decide,
    XY2_in_range_value 1 0 (by decide) (by decide), by decide⟩
  · rw [deg_of_nonneg _ (by omega), h1]
    push_cast
    omega
  · rw [h2]; exact XY2_in_range_value x y hx hy

theorem XY2_is_axis_swap_witness :
    XY2 3 5 = some (16 * 3 + 5) ∧ XY 5 3 = 16 * 3 + 5 ∧
      deg ((XY 3 5 : Nat) : Int) = ((16 * 3 + 5 : Nat) : Int) ∧
      XY2 3 5 = some (XY 5 3) ∧
      XYTable[1]? = some 16 ∧ XY2 1 0 = some 16 ∧ XY 1 0 = 1 :=
  XY2_is_axis_swap 3 5 (by decide) (by decide)

/-! ### colorFill -/

theorem forRange_succ (n : Nat) (body : Nat → List CRGB → List CRGB) (leds : List CRGB) :
    forRange (n + 1) body leds = body n (forRange n body leds) := by
  simp only [forRange, List.range_succ, List.foldl_append, List.foldl_cons, List.foldl_nil]

theorem setLed_length (leds : List CRGB) (i : Nat) (c : CRGB) :
    (setLed leds i c).length = leds.length := List.length_set leds i c

theorem setLed_getElem? (leds : List CRGB) (i j : Nat) (c : CRGB) :
    (setLed leds i c)[j]?
      = if i = j then (if i < leds.length then some c else none) else leds[j]? :=
  List.getElem?_set

theorem forRange_set_length (f : Nat → Nat) (c : CRGB) (leds : List CRGB) (n : Nat) :
    (forRange n (fun x acc => setLed acc (f x) c) leds).length = leds.length := by
  induction n with
  | zero => rfl
  | succ n ih => rw [forRange_succ, setLed_length, ih]

/-- A cell addressed by the loop holds the colour afterwards. -/
theorem forRange_set_hit (f : Nat → Nat) (c : CRGB) (leds : List CRGB) (n x : Nat)
    (hx : x < n) (hlen : f x < leds.length) :
    (forRange n (fun x acc => setLed acc (f x) c) leds)[f x]? = some c := by
  induction n with
  | zero => omega
  | succ n ih =>
    rw [forRange_succ]
    rw [setLed_getElem?, forRange_set_length]
    by_cases hfx : f n = f x
    · rw [if_pos hfx, if_pos (by rw [hfx]; exact hlen)]
    · rw [if_neg hfx]
      exact ih (by
        rcases Nat.lt_succ_iff_lt_or_eq.mp hx with h | h
        · exact h
        · exact absurd (by rw [h]) hfx)

/-- A cell that the loop does not address keeps its contents. -/
theorem forRange_set_miss (f : Nat → Nat) (c : CRGB) (leds : List CRGB) (n i : Nat)
    (hmiss : ∀ x, x < n → f x ≠ i) :
    (forRange n (fun x acc => setLed acc (f x) c) leds)[i]? = leds[i]? := by
  induction n with
  | zero => rfl
  | succ n ih =>
    rw [forRange_succ]
    rw [setLed_getElem?, if_neg (hmiss n (Nat.lt_succ_self n))]
    exact ih (fun x hx => hmiss x (Nat.lt_succ_of_lt hx))

/-- The startup block of `colorFill` followed by the rest of the call is the call made
with `effectInit = true` on the reset statics. -/
theorem colorFill_init (L : Lib) (rnd : Nat) (g : Globals) (v : ColorFillVars)
    (h : g.effectInit = false) :
    colorFill L rnd g v
      = colorFill L rnd
          { g with effectInit := true, effectDelay := 45, currentPalette := L.RainbowColors_p }
          { currentColor := 0, currentRow := 0, currentDirection := 0 } := by
  simp only [colorFill, h, if_true, Bool.true_eq_false, if_false]

/-- The counters and the delay after a call made with `effectInit = true` and the
counters in range. -/
theorem colorFill_counters (L : Lib) (rnd : Nat) (g : Globals) (v : ColorFillVars)
    (h : g.effectInit = true) (hrow : v.currentRow < 16) (hdir : v.currentDirection ≤ 3) :
    (colorFill L rnd g v).1.effectInit = true ∧
      (colorFill L rnd g v).1.currentPalette = g.currentPalette ∧
      (colorFill L rnd g v).2.currentRow = (v.currentRow + 1) % 16 ∧
      (colorFill L rnd g v).2.currentDirection
        = (if v.currentRow = 15 then (v.currentDirection + 1) % 4 else v.currentDirection) ∧
      (colorFill L rnd g v).2.currentColor
        = (if v.currentRow = 15 then
            (if (v.currentColor + rnd) % 256 > 15 then (v.currentColor + rnd) % 256 - 16
              else (v.currentColor + rnd) % 256)
           else v.currentColor) ∧
      (colorFill L rnd g v).1.effectDelay
        = (if v.currentRow = 15 then 300
           else if v.currentDirection % 2 = 0 then 45 else 20) := by
  obtain ⟨c, r, d⟩ := v
  simp only at hrow hdir ⊢
  have hr1 : (r + 1) % 256 = r + 1 := by omega
  by_cases h15 : r = 15
  · subst h15
    interval_cases d <;> simp [colorFill, h, kMatrixHeight, kMatrixWidth]
  · have hlt : ¬ (r + 1 ≥ 16) := by omega
    have hmod : (r + 1) % 16 = r + 1 := by omega
    interval_cases d <;> simp [colorFill, h, kMatrixHeight, kMatrixWidth, hr1, hlt, hmod, h15]


/-- The frame after a call of `colorFill` is the frame before it with the colour read at
`paletteIndex` written to the cells `XY x y` of the recorded coordinates, in order. -/
theorem colorFill_leds_access (L : Lib) (rnd : Nat) (g : Globals) (v : ColorFillVars) :
    (colorFill L rnd g v).1.leds
      = (colorFillAccess g v).coords.foldl
          (fun acc p => setLed acc (XY p.1 p.2)
            (paletteEntry (if g.effectInit = false then L.RainbowColors_p else g.currentPalette)
              (colorFillAccess g v).paletteIndex))
          g.leds := by
  by_cases h : g.effectInit = false
  · simp [colorFill, colorFillAccess, h, forRange, List.foldl_map, kMatrixHeight, kMatrixWidth]
  · by_cases hd : v.currentDirection % 2 = 0
    · by_cases hw : (v.currentRow + 1) % 256 ≥ 16 <;>
        simp [colorFill, colorFillAccess, h, hd, hw, forRange, List.foldl_map, kMatrixHeight,
          kMatrixWidth, Nat.and_one_is_mod]
    · have hd1 : v.currentDirection % 2 = 1 := by omega
      by_cases hw : (v.currentRow + 1) % 256 ≥ 16 <;>
        simp [colorFill, colorFillAccess, h, hd1, hw, forRange, List.foldl_map, kMatrixHeight,
          kMatrixWidth, Nat.and_one_is_mod]

/-- A call in direction 0 writes the colour along line `currentRow`. -/
theorem colorFill_down_leds (L : Lib) (rnd : Nat) (g : Globals) (v : ColorFillVars)
    (h : g.effectInit = true) (hdir : v.currentDirection = 0) :
    (colorFill L rnd g v).1.leds
      = forRange 16 (fun x acc => setLed acc (XY x v.currentRow)
          (paletteEntry g.currentPalette v.currentColor)) g.leds := by
  rw [colorFill_leds_access]
  simp [colorFillAccess, h, hdir, forRange, List.foldl_map, kMatrixWidth]


theorem colorFillRun_succ (L : Lib) (rnds : Nat → Nat) (k : Nat)
    (s : Globals × ColorFillVars) :
    colorFillRun L rnds (k + 1) s
      = colorFill L (rnds k) (colorFillRun L rnds k s).1 (colorFillRun L rnds k s).2 := rfl

theorem colorFillRun_one (L : Lib) (rnds : Nat → Nat) (g0 : Globals) (v0 : ColorFillVars)
    (hinit : g0.effectInit = false) :
    colorFillRun L rnds 1 (g0, v0)
      = colorFill L (rnds 0)
          { g0 with effectInit := true, effectDelay := 45, currentPalette := L.RainbowColors_p }
          { currentColor := 0, currentRow := 0, currentDirection := 0 } := by
  rw [colorFillRun_succ]
  exact colorFill_init L (rnds 0) g0 v0 hinit

/-- Line and direction after `k + 1` calls of `colorFill` started with
`effectInit = false`. -/
theorem colorFillRun_counters (L : Lib) (rnds : Nat → Nat) (g0 : Globals) (v0 : ColorFillVars)
    (hinit : g0.effectInit = false) (k : Nat) :
    (colorFillRun L rnds (k + 1) (g0, v0)).1.effectInit = true ∧
      (colorFillRun L rnds (k + 1) (g0, v0)).1.currentPalette = L.RainbowColors_p ∧
      (colorFillRun L rnds (k + 1) (g0, v0)).2.currentRow = (k + 1) % 16 ∧
      (colorFillRun L rnds (k + 1) (g0, v0)).2.currentDirection = ((k + 1) / 16) % 4 := by
  induction k with
  | zero =>
    rw [colorFillRun_one L rnds g0 v0 hinit]
    obtain ⟨c1, c2, c3, c4, -, -⟩ := colorFill_counters L (rnds 0)
      { g0 with effectInit := true, effectDelay := 45, currentPalette := L.RainbowColors_p }
      { currentColor := 0, currentRow := 0, currentDirection := 0 } rfl (by decide) (by decide)
    exact ⟨c1, c2, c3, c4⟩
  | succ k ih =>
    rw [colorFillRun_succ]
    generalize colorFillRun L rnds (k + 1) (g0, v0) = S at ih
    obtain ⟨i1, i2, i3, i4⟩ := ih
    obtain ⟨c1, c2, c3, c4, -, -⟩ := colorFill_counters L (rnds (k + 1)) S.1 S.2 i1
      (by rw [i3]; omega) (by rw [i4]; omega)
    refine ⟨c1, c2.trans i2, ?_, ?_⟩
    · rw [c3, i3]; omega
    · rw [c4, i3, i4]
      split_ifs <;> omega

/-- The colour counter stays at most 15 when every draw of `random8(3, 6)` is 3, 4 or 5. -/
theorem colorFillRun_color (L : Lib) (rnds : Nat → Nat) (g0 : Globals) (v0 : ColorFillVars)
    (hinit : g0.effectInit = false) (hr : ∀ k, rnds k = 3 ∨ rnds k = 4 ∨ rnds k = 5) (k : Nat) :
    (colorFillRun L rnds (k + 1) (g0, v0)).2.currentColor ≤ 15 := by
  induction k with
  | zero =>
    rw [colorFillRun_one L rnds g0 v0 hinit]
    obtain ⟨-, -, -, -, c5, -⟩ := colorFill_counters L (rnds 0)
      { g0 with effectInit := true, effectDelay := 45, currentPalette := L.RainbowColors_p }
      { currentColor := 0, currentRow := 0, currentDirection := 0 } rfl (by decide) (by decide)
    rw [c5]; simp
  | succ k ih =>
    obtain ⟨i1, -, i3, i4⟩ := colorFillRun_counters L rnds g0 v0 hinit k
    rw [colorFillRun_succ]
    generalize colorFillRun L rnds (k + 1) (g0, v0) = S at ih i1 i3 i4
    obtain ⟨-, -, -, -, c5, -⟩ := colorFill_counters L (rnds (k + 1)) S.1 S.2 i1
      (by rw [i3]; omega) (by rw [i4]; omega)
    rw [c5]
    have := hr (k + 1)
    split_ifs <;> omega

/-- The accesses of a call are in range when the startup block runs or the counters are
in range. -/
theorem colorFillAccess_in_range (g : Globals) (v : ColorFillVars)
    (h : g.effectInit = false ∨
      (v.currentColor ≤ 15 ∧ v.currentDirection ≤ 3 ∧ v.currentRow < 16)) :
    (colorFillAccess g v).paletteIndex < 16 ∧
      ∀ p ∈ (colorFillAccess g v).coords, p.1 < 16 ∧ p.2 < 16 := by
  by_cases hi : g.effectInit = false
  · simp only [colorFillAccess, hi, if_true, kMatrixWidth, kMatrixHeight]
    refine ⟨by decide, ?_⟩
    intro p hp
    simp at hp
    obtain ⟨a, ha, rfl⟩ := hp
    exact ⟨ha, Nat.zero_lt_succ _⟩
  · rcases h with h | ⟨hc, hd, hrow⟩
    · exact absurd h hi
    · simp only [colorFillAccess, if_neg hi, kMatrixWidth, kMatrixHeight]
      refine ⟨by omega, ?_⟩
      intro p hp
      split_ifs at hp with hpar h2 h3 <;> simp at hp <;> obtain ⟨a, ha, rfl⟩ := hp <;>
        constructor <;> simp only <;> omega


/-- C13: `colorFill` keeps its counters in range. The predicate `currentColor <= 15`,
`currentDirection <= 3`, `currentRow < 16` holds after the initializing call, is preserved
by every later call for every random increment in `{3, 4, 5}`, and so holds after every
call of a run; hence every call of the run reads the palette at a position below 16 and
passes only coordinates `x < 16`, `y < 16` to `XY`. -/
theorem colorFill_counters_in_range (L : Lib) (rnds : Nat → Nat) (g0 : Globals)
    (v0 : ColorFillVars) (hinit : g0.effectInit = false)
    (hr : ∀ k, rnds k = 3 ∨ rnds k = 4 ∨ rnds k = 5) :
    ((colorFill L (rnds 0) g0 v0).2.currentColor ≤ 15 ∧
        (colorFill L (rnds 0) g0 v0).2.currentDirection ≤ 3 ∧
        (colorFill L (rnds 0) g0 v0).2.currentRow < 16) ∧
      (∀ (rnd : Nat) (g : Globals) (v : ColorFillVars), g.effectInit = true →
        (rnd = 3 ∨ rnd = 4 ∨ rnd = 5) →
        v.currentColor ≤ 15 → v.currentDirection ≤ 3 → v.currentRow < 16 →
        (colorFill L rnd g v).1.effectInit = true ∧
        (colorFill L rnd g v).2.currentColor ≤ 15 ∧
        (colorFill L rnd g v).2.currentDirection ≤ 3 ∧
        (colorFill L rnd g v).2.currentRow < 16) ∧
      (∀ k : Nat, 1 ≤ k →
        (colorFillRun L rnds k (g0, v0)).2.currentColor ≤ 15 ∧
        (colorFillRun L rnds k (g0, v0)).2.currentDirection ≤ 3 ∧
        (colorFillRun L rnds k (g0, v0)).2.currentRow < 16) ∧
      (∀ k : Nat,
        (colorFillAccess (colorFillRun L rnds k (g0, v0)).1
          (colorFillRun L rnds k (g0, v0)).2).paletteIndex < 16 ∧
        ∀ p ∈ (colorFillAccess (colorFillRun L rnds k (g0, v0)).1
          (colorFillRun L rnds k (g0, v0)).2).coords, p.1 < 16 ∧ p.2 < 16) := by
  have hrun : ∀ k : Nat, 1 ≤ k →
      (colorFillRun L rnds k (g0, v0)).2.currentColor ≤ 15 ∧
      (colorFillRun L rnds k (g0, v0)).2.currentDirection ≤ 3 ∧
      (colorFillRun L rnds k (g0, v0)).2.currentRow < 16 := by
    intro k hk
    obtain ⟨j, rfl⟩ : ∃ j, k = j + 1 := ⟨k - 1, by omega⟩
    obtain ⟨-, -, c3, c4⟩ := colorFillRun_counters L rnds g0 v0 hinit j
    refine ⟨colorFillRun_color L rnds g0 v0 hinit hr j, ?_, ?_⟩
    · rw [c4]; omega
    · rw [c3]; omega
  refine ⟨hrun 1 (by decide), ?_, hrun, ?_⟩
  · intro rnd g v hg hrnd hc hd hrow
    obtain ⟨c1, -, c3, c4, c5, -⟩ := colorFill_counters L rnd g v hg hrow hd
    refine ⟨c1, ?_, ?_, ?_⟩
    · rw [c5]; split_ifs <;> omega
    · rw [c4]; split_ifs <;> omega
    · rw [c3]; omega
  · intro k
    apply colorFillAccess_in_range
    cases k with
    | zero => exact Or.inl hinit
    | succ j => exact Or.inr (hrun (j + 1) (by omega))

theorem colorFill_counters_in_range_witness :
    ((colorFill sampleLib (sampleRnds 0) sampleFillStart.1 sampleFillStart.2).2.currentColor ≤ 15 ∧
        (colorFill sampleLib (sampleRnds 0) sampleFillStart.1 sampleFillStart.2).2.currentDirection ≤ 3 ∧
        (colorFill sampleLib (sampleRnds 0) sampleFillStart.1 sampleFillStart.2).2.currentRow < 16) ∧
      (∀ (rnd : Nat) (g : Globals) (v : ColorFillVars), g.effectInit = true →
        (rnd = 3 ∨ rnd = 4 ∨ rnd = 5) →
        v.currentColor ≤ 15 → v.currentDirection ≤ 3 → v.currentRow < 16 →
        (colorFill sampleLib rnd g v).1.effectInit = true ∧
        (colorFill sampleLib rnd g v).2.currentColor ≤ 15 ∧
        (colorFill sampleLib rnd g v).2.currentDirection ≤ 3 ∧
        (colorFill sampleLib rnd g v).2.currentRow < 16) ∧
      (∀ k : Nat, 1 ≤ k →
        (colorFillRun sampleLib sampleRnds k sampleFillStart).2.currentColor ≤ 15 ∧
        (colorFillRun sampleLib sampleRnds k sampleFillStart).2.currentDirection ≤ 3 ∧
        (colorFillRun sampleLib sampleRnds k sampleFillStart).2.currentRow < 16) ∧
      (∀ k : Nat,
        (colorFillAccess (colorFillRun sampleLib sampleRnds k sampleFillStart).1
          (colorFillRun sampleLib sampleRnds k sampleFillStart).2).paletteIndex < 16 ∧
        ∀ p ∈ (colorFillAccess (colorFillRun sampleLib sampleRnds k sampleFillStart).1
          (colorFillRun sampleLib sampleRnds k sampleFillStart).2).coords, p.1 < 16 ∧ p.2 < 16) :=
  colorFill_counters_in_range sampleLib sampleRnds sampleFillStart.1 sampleFillStart.2 rfl
    (fun k => by simp only [sampleRnds]; omega)

/-- A call in direction 0 on line `k`, in a frame whose lines below `k` already hold the
colour, leaves the lines up to `k` holding it and the others as they were. -/
theorem colorFill_line_step (L : Lib) (rnd : Nat) (g : Globals) (v : ColorFillVars)
    (leds0 : List CRGB) (k : Nat) (h : g.effectInit = true)
    (hpal : g.currentPalette = L.RainbowColors_p)
    (hc : v.currentColor = 0) (hrow : v.currentRow = k) (hd : v.currentDirection = 0)
    (hk : k < 16) (hlen : g.leds.length = 256)
    (hleds : ∀ x y, x < 16 → y < 16 → g.leds[XY x y]?
      = if y < k then some (paletteEntry L.RainbowColors_p 0) else leds0[XY x y]?) :
    (colorFill L rnd g v).1.leds.length = 256 ∧
      (∀ x y, x < 16 → y < 16 → (colorFill L rnd g v).1.leds[XY x y]?
        = if y < k + 1 then some (paletteEntry L.RainbowColors_p 0) else leds0[XY x y]?) := by
  rw [colorFill_down_leds L rnd g v h hd, hrow, hc, hpal]
  refine ⟨by rw [forRange_set_length, hlen], ?_⟩
  intro x y hx hy
  have hxy : ∀ a b, a < 16 → b < 16 → XY a b = b * 16 + a := by
    intro a b ha hb
    simp only [XY, kMatrixWidth]; omega
  by_cases hyk : y = k
  · subst hyk
    rw [if_pos (Nat.lt_succ_self y)]
    exact forRange_set_hit (fun a => XY a y) _ g.leds 16 x hx (by
      show XY x y < g.leds.length
      rw [hlen, hxy x y hx hy]; omega)
  · rw [forRange_set_miss (fun a => XY a k) _ g.leds 16 (XY x y) (by
      intro a ha
      show XY a k ≠ XY x y
      rw [hxy a k ha hk, hxy x y hx hy]; omega), hleds x y hx hy]
    by_cases hlt : y < k
    · rw [if_pos hlt, if_pos (by omega)]
    · rw [if_neg hlt, if_neg (by omega)]


/-- The first 16 calls of `colorFill` started with `effectInit = false`: after call
`k + 1` the lines `0..k` hold the first palette colour, the other cells are as before
the first call, and while the fill is not complete the counters are `(0, k + 1, 0)` and
the delay is 45. -/
theorem colorFillRun_lines (L : Lib) (rnds : Nat → Nat) (g0 : Globals) (v0 : ColorFillVars)
    (hinit : g0.effectInit = false) (hlen : g0.leds.length = 256) (k : Nat) (hk : k < 16) :
    (colorFillRun L rnds (k + 1) (g0, v0)).1.leds.length = 256 ∧
      (∀ x y, x < 16 → y < 16 → (colorFillRun L rnds (k + 1) (g0, v0)).1.leds[XY x y]?
        = if y < k + 1 then some (paletteEntry L.RainbowColors_p 0) else g0.leds[XY x y]?) ∧
      (k < 15 → (colorFillRun L rnds (k + 1) (g0, v0)).2.currentColor = 0 ∧
        (colorFillRun L rnds (k + 1) (g0, v0)).1.effectDelay = 45) ∧
      (k = 15 → (colorFillRun L rnds (k + 1) (g0, v0)).1.effectDelay = 300) := by
  induction k with
  | zero =>
    rw [colorFillRun_one L rnds g0 v0 hinit]
    obtain ⟨l1, l2⟩ := colorFill_line_step L (rnds 0)
      { g0 with effectInit := true, effectDelay := 45, currentPalette := L.RainbowColors_p }
      { currentColor := 0, currentRow := 0, currentDirection := 0 } g0.leds 0 rfl rfl rfl rfl rfl
      (by decide) hlen (fun x y _ _ => by simp)
    obtain ⟨-, -, -, -, c5, c6⟩ := colorFill_counters L (rnds 0)
      { g0 with effectInit := true, effectDelay := 45, currentPalette := L.RainbowColors_p }
      { currentColor := 0, currentRow := 0, currentDirection := 0 } rfl (by decide) (by decide)
    refine ⟨l1, l2, fun _ => ⟨?_, ?_⟩, fun h => by omega⟩
    · rw [c5]; simp
    · rw [c6]; simp
  | succ k ih =>
    obtain ⟨i1, i2, i3, -⟩ := ih (by omega)
    obtain ⟨ic, -⟩ := i3 (by omega)
    obtain ⟨r1, r2, r3, r4⟩ := colorFillRun_counters L rnds g0 v0 hinit k
    rw [colorFillRun_succ]
    generalize colorFillRun L rnds (k + 1) (g0, v0) = S at i1 i2 ic r1 r2 r3 r4
    have hrow : S.2.currentRow = k + 1 := by rw [r3]; omega
    have hdir : S.2.currentDirection = 0 := by rw [r4]; omega
    obtain ⟨l1, l2⟩ := colorFill_line_step L (rnds (k + 1)) S.1 S.2 g0.leds (k + 1) r1 r2 ic
      hrow hdir hk i1 i2
    obtain ⟨-, -, -, -, c5, c6⟩ := colorFill_counters L (rnds (k + 1)) S.1 S.2 r1
      (by rw [hrow]; omega) (by rw [hdir]; omega)
    refine ⟨l1, l2, fun h15 => ⟨?_, ?_⟩, fun h15 => ?_⟩
    · rw [c5, if_neg (by rw [hrow]; omega), ic]
    · rw [c6, if_neg (by rw [hrow]; omega), hdir]; simp
    · rw [c6, if_pos (by rw [hrow]; omega)]

/-- C12: `colorFill` fills the grid one line per step. Started with `effectInit = false`
on the 16x16 grid, after `k` steps (`1 <= k <= 16`) every cell of the lines `0..k-1`
holds `currentPalette[0]` and every other cell is unchanged, and `effectDelay` is 45
after each of the steps 1..15; after step 16 all 256 cells hold `currentPalette[0]`,
`currentRow = 0`, `currentDirection = 1` and `effectDelay = 300`; in general after `k`
steps the line is `k % 16` and the direction `(k / 16) % 4`, so the direction advances
0, 1, 2, 3, 0 once every 16 steps. -/
theorem colorFill_fills_line_by_line (L : Lib) (rnds : Nat → Nat) (g0 : Globals)
    (v0 : ColorFillVars) (hinit : g0.effectInit = false) (hlen : g0.leds.length = NUM_LEDS) :
    (∀ k x y : Nat, 1 ≤ k → k ≤ 16 → x < 16 → y < 16 →
        (colorFillRun L rnds k (g0, v0)).1.leds[XY x y]?
          = if y < k then
              some (paletteEntry (colorFillRun L rnds k (g0, v0)).1.currentPalette 0)
            else g0.leds[XY x y]?) ∧
      (∀ k : Nat, 1 ≤ k → k ≤ 15 → (colorFillRun L rnds k (g0, v0)).1.effectDelay = 45) ∧
      (∀ i : Nat, i < 256 → (colorFillRun L rnds 16 (g0, v0)).1.leds[i]?
        = some (paletteEntry (colorFillRun L rnds 16 (g0, v0)).1.currentPalette 0)) ∧
      (colorFillRun L rnds 16 (g0, v0)).2.currentRow = 0 ∧
      (colorFillRun L rnds 16 (g0, v0)).2.currentDirection = 1 ∧
      (colorFillRun L rnds 16 (g0, v0)).1.effectDelay = 300 ∧
      (∀ k : Nat, 1 ≤ k →
        (colorFillRun L rnds k (g0, v0)).2.currentRow = k % 16 ∧
        (colorFillRun L rnds k (g0, v0)).2.currentDirection = (k / 16) % 4 ∧
        (colorFillRun L rnds k (g0, v0)).1.currentPalette = L.RainbowColors_p) := by
  have hlen2 : g0.leds.length = 256 := hlen
  have hcells : ∀ k x y : Nat, 1 ≤ k → k ≤ 16 → x < 16 → y < 16 →
      (colorFillRun L rnds k (g0, v0)).1.leds[XY x y]?
        = if y < k then
            some (paletteEntry (colorFillRun L rnds k (g0, v0)).1.currentPalette 0)
          else g0.leds[XY x y]? := by
    intro k x y hk1 hk16 hx hy
    obtain ⟨j, rfl⟩ : ∃ j, k = j + 1 := ⟨k - 1, by omega⟩
    rw [(colorFillRun_counters L rnds g0 v0 hinit j).2.1]
    exact (colorFillRun_lines L rnds g0 v0 hinit hlen2 j (by omega)).2.1 x y hx hy
  refine ⟨hcells, ?_, ?_, ?_, ?_, ?_, ?_⟩
  · intro k hk1 hk15
    obtain ⟨j, rfl⟩ : ∃ j, k = j + 1 := ⟨k - 1, by omega⟩
    exact ((colorFillRun_lines L rnds g0 v0 hinit hlen2 j (by omega)).2.2.1 (by omega)).2
  · intro i hi
    have hxy : XY (i % 16) (i / 16) = i := by
      simp only [XY, kMatrixWidth]; omega
    have h := hcells 16 (i % 16) (i / 16) (by decide) (by decide) (by omega) (by omega)
    rw [hxy, if_pos (by omega)] at h
    exact h
  · rw [(colorFillRun_counters L rnds g0 v0 hinit 15).2.2.1]
  · rw [(colorFillRun_counters L rnds g0 v0 hinit 15).2.2.2]
  · exact (colorFillRun_lines L rnds g0 v0 hinit hlen2 15 (by decide)).2.2.2 rfl
  · intro k hk1
    obtain ⟨j, rfl⟩ : ∃ j, k = j + 1 := ⟨k - 1, by omega⟩
    obtain ⟨-, c2, c3, c4⟩ := colorFillRun_counters L rnds g0 v0 hinit j
    exact ⟨c3, c4, c2⟩

set_option maxRecDepth 100000 in
theorem colorFill_fills_line_by_line_witness :
    (∀ k x y : Nat, 1 ≤ k → k ≤ 16 → x < 16 → y < 16 →
        (colorFillRun sampleLib sampleRnds k sampleFillStart).1.leds[XY x y]?
          = if y < k then
              some (paletteEntry (colorFillRun sampleLib sampleRnds k sampleFillStart).1.currentPalette 0)
            else sampleFillStart.1.leds[XY x y]?) ∧
      (∀ k : Nat, 1 ≤ k → k ≤ 15 → (colorFillRun sampleLib sampleRnds k sampleFillStart).1.effectDelay = 45) ∧
      (∀ i : Nat, i < 256 → (colorFillRun sampleLib sampleRnds 16 sampleFillStart).1.leds[i]?
        = some (paletteEntry (colorFillRun sampleLib sampleRnds 16 sampleFillStart).1.currentPalette 0)) ∧
      (colorFillRun sampleLib sampleRnds 16 sampleFillStart).2.currentRow = 0 ∧
      (colorFillRun sampleLib sampleRnds 16 sampleFillStart).2.currentDirection = 1 ∧
      (colorFillRun sampleLib sampleRnds 16 sampleFillStart).1.effectDelay = 300 ∧
      (∀ k : Nat, 1 ≤ k →
        (colorFillRun sampleLib sampleRnds k sampleFillStart).2.currentRow = k % 16 ∧
        (colorFillRun sampleLib sampleRnds k sampleFillStart).2.currentDirection = (k / 16) % 4 ∧
        (colorFillRun sampleLib sampleRnds k sampleFillStart).1.currentPalette = sampleLib.RainbowColors_p) :=
  colorFill_fills_line_by_line sampleLib sampleRnds sampleFillStart.1 sampleFillStart.2 rfl
    (by decide)

/-! ### fireworks -/

/-- The spark handed to `Move()`: `show` is cleared first when `sparkLife <= 0`. -/
theorem sparkStep_moved (O : SparkOps) (life : Int) (acc : SparkLoop) (s : Spark) :
    (sparkStep O life acc s).moved
      = acc.moved ++ [if life ≤ 0 then { s with «show» := 0 } else s] := rfl

theorem sparkStep_fold_moved (O : SparkOps) (life : Int) (sparks : List Spark) :
    ∀ acc : SparkLoop, (sparks.foldl (sparkStep O life) acc).moved
      = acc.moved ++ sparks.map (fun s => if life ≤ 0 then { s with «show» := 0 } else s) := by
  induction sparks with
  | nil => intro acc; simp
  | cons s rest ih =>
    intro acc
    rw [List.foldl_cons, ih, sparkStep_moved]
    simp

theorem sparkStep_fold_length (O : SparkOps) (life : Int) (sparks : List Spark) :
    ∀ acc : SparkLoop, (sparks.foldl (sparkStep O life) acc).sparks.length
      = acc.sparks.length + sparks.length := by
  induction sparks with
  | nil => intro acc; rfl
  | cons s rest ih =>
    intro acc
    rw [List.foldl_cons, ih]
    simp only [sparkStep, List.length_append, List.length_cons, List.length_nil]
    omega

/-- When `Move()` and `Draw()` leave `show` alone and every spark has `show = w` when it
is moved, the loop counts `w` for each spark and leaves every spark with `show = w`. -/
theorem sparkStep_fold_count (O : SparkOps) (life : Int) (w : Nat)
    (hMove : ∀ s, (O.Move s).show = s.show)
    (hDraw : ∀ s leds, (O.Draw s leds).1.show = s.show) (sparks : List Spark)
    (hw : ∀ s ∈ sparks, (if life ≤ 0 then { s with «show» := 0 } else s).show = w) :
    ∀ acc : SparkLoop, (∀ p ∈ acc.sparks, p.show = w) → acc.sparksDone < 256 →
      (sparks.foldl (sparkStep O life) acc).sparksDone
        = (acc.sparksDone + w * sparks.length) % 256 ∧
      ∀ p ∈ (sparks.foldl (sparkStep O life) acc).sparks, p.show = w := by
  induction sparks with
  | nil =>
    intro acc hacc hlt
    exact ⟨by simp only [List.foldl_nil, List.length_nil]; omega, hacc⟩
  | cons s rest ih =>
    intro acc hacc _
    have hs : (if life ≤ 0 then { s with «show» := 0 } else s).show = w :=
      hw s (List.mem_cons_self s rest)
    have hstep : ((O.Draw (O.Move (if life ≤ 0 then { s with «show» := 0 } else s))
        acc.leds).1).show = w := by rw [hDraw, hMove, hs]
    rw [List.foldl_cons]
    obtain ⟨h1, h2⟩ := ih (fun t ht => hw t (List.mem_cons_of_mem s ht)) (sparkStep O life acc s)
      (by
        intro p hp
        simp only [sparkStep, List.mem_append, List.mem_singleton] at hp
        rcases hp with hp | hp
        · exact hacc p hp
        · rw [hp]; exact hstep)
      (by simp only [sparkStep]; omega)
    refine ⟨?_, h2⟩
    rw [h1]
    simp only [sparkStep, hstep, List.length_cons]
    rw [Nat.mul_succ]
    omega


theorem fireworksStart_effectInit (g : Globals) : (fireworksStart g).effectInit = true := by
  unfold fireworksStart
  split_ifs with h
  · rfl
  · simpa using h

theorem fireworksStart_gSparks (g : Globals) : (fireworksStart g).gSparks = g.gSparks := by
  unfold fireworksStart
  split_ifs <;> rfl

theorem fireworksStart_of_init (g : Globals) (h : g.effectInit = true) :
    fireworksStart g = g := by
  unfold fireworksStart
  rw [if_neg (by simp [h])]

theorem fireworksLife_nonneg (sparkLife : Int) (h : 0 ≤ sparkLife) :
    0 ≤ fireworksLife sparkLife := by
  unfold fireworksLife
  split_ifs <;> omega

/-- What the part after the loop leaves, in terms of what the loop left. -/
theorem fireworksFinish_facts (L : Lib) (O : SparkOps) (d : FireworksDraws) (g1 : Globals)
    (life : Int) (lp : SparkLoop) :
    (fireworksFinish L O d g1 life lp).moved = lp.moved ∧
      (fireworksFinish L O d g1 life lp).sparksDone = lp.sparksDone ∧
      ((fireworksFinish L O d g1 life lp).burst = true ↔
        (lp.sparksDone = 0 ∨ g1.gSkyburst ≠ 0)) ∧
      ((fireworksFinish L O d g1 life lp).burst = true →
        (fireworksFinish L O d g1 life lp).vars.sparkLife = (d.life : Int) ∧
        (fireworksFinish L O d g1 life lp).globals.gSparks
          = lp.sparks.enum.map (fun bs =>
              O.Skyburst (d.seeds bs.1) ((d.sx <<< 8) % 65536) ((d.sy <<< 8) % 65536) 0
                (L.hsv (d.hue % 256) 255 255) bs.2)) ∧
      ((fireworksFinish L O d g1 life lp).burst = false →
        (fireworksFinish L O d g1 life lp).vars.sparkLife = life ∧
        (fireworksFinish L O d g1 life lp).globals.gSparks = lp.sparks) ∧
      (fireworksFinish L O d g1 life lp).globals.effectInit = g1.effectInit ∧
      (fireworksFinish L O d g1 life lp).globals.gSkyburst = 0 ∧
      (fireworksFinish L O d g1 life lp).globals.gSparks.length = lp.sparks.length := by
  unfold fireworksFinish
  by_cases h0 : lp.sparksDone = 0
  · simp [h0]
  · by_cases h1 : g1.gSkyburst = 0
    · simp [h0, h1]
    · simp [h0, h1]

/-- A call of `fireworks` returns exactly when the pool has at most 255 sparks, and then
it is the loop over the pool followed by the part after the loop. -/
theorem fireworksRun_eq (L : Lib) (O : SparkOps) (d : FireworksDraws) (g : Globals)
    (v : FireworksVars) :
    fireworksRun L O d g v
      = if g.gSparks.length ≤ 255 then
          some (fireworksFinish L O d (fireworksStart g) (fireworksLife v.sparkLife)
            (sparkFold O (fireworksLife v.sparkLife) g.gSparks
              (fireworksFade O v.boom (fireworksStart g).leds)))
        else none := by
  unfold fireworksRun sparkLoop
  rw [fireworksStart_gSparks]
  split_ifs <;> rfl


/-- One call of `fireworks` on a pool of at most 255 sparks: the call returns; every spark
is handed to `Move()` with `show` cleared when the counted-down `sparkLife` is not
positive; the burst block runs exactly when `sparksDone` is 0 or `gSkyburst` was set; the
call leaves `sparkLife` at the value drawn after a burst and at the counted-down value
otherwise. -/
theorem fireworksRun_call (L : Lib) (O : SparkOps) (d : FireworksDraws) (g : Globals)
    (v : FireworksVars) (hp : g.gSparks.length ≤ 255) :
    ∃ c : FireworksCall, fireworksRun L O d g v = some c ∧
      c.moved = g.gSparks.map (fun s =>
        if fireworksLife v.sparkLife ≤ 0 then { s with «show» := 0 } else s) ∧
      (c.burst = true ↔ (c.sparksDone = 0 ∨ (fireworksStart g).gSkyburst ≠ 0)) ∧
      (c.burst = true → c.vars.sparkLife = (d.life : Int)) ∧
      (c.burst = false → c.vars.sparkLife = fireworksLife v.sparkLife) ∧
      c.globals.effectInit = true ∧ c.globals.gSkyburst = 0 ∧
      c.globals.gSparks.length = g.gSparks.length ∧
      ((∀ s, (O.Move s).show = s.show) → (∀ s leds, (O.Draw s leds).1.show = s.show) →
        ∀ w : Nat, (∀ p ∈ g.gSparks,
          (if fireworksLife v.sparkLife ≤ 0 then { p with «show» := 0 } else p).show = w) →
        c.sparksDone = (w * g.gSparks.length) % 256 ∧
        (c.burst = false → ∀ p ∈ c.globals.gSparks, p.show = w)) ∧
      ((∀ seed sx sy dv col p, (O.Skyburst seed sx sy dv col p).show = 1) →
        c.burst = true → ∀ p ∈ c.globals.gSparks, p.show = 1) := by
  obtain ⟨f1, f2, f3, f4, f5, f6, f7, f8⟩ := fireworksFinish_facts L O d (fireworksStart g)
    (fireworksLife v.sparkLife) (sparkFold O (fireworksLife v.sparkLife) g.gSparks
      (fireworksFade O v.boom (fireworksStart g).leds))
  refine ⟨_, by rw [fireworksRun_eq, if_pos hp], ?_, ?_, ?_, ?_, ?_, f7, ?_, ?_, ?_⟩
  · rw [f1]
    simp only [sparkFold]
    rw [sparkStep_fold_moved]
    rfl
  · rw [f3, f2]
  · exact fun hb => (f4 hb).1
  · exact fun hb => (f5 hb).1
  · rw [f6]; exact fireworksStart_effectInit g
  · rw [f8]
    simp only [sparkFold]
    rw [sparkStep_fold_length]
    simp
  · intro hMove hDraw w hw
    obtain ⟨k1, k2⟩ := sparkStep_fold_count O (fireworksLife v.sparkLife) w hMove hDraw
      g.gSparks hw
      { sparks := [], leds := fireworksFade O v.boom (fireworksStart g).leds, sparksDone := 0,
        moved := [] }
      (fun p hp => by simp at hp) (Nat.zero_lt_succ _)
    refine ⟨?_, ?_⟩
    · rw [f2]
      simp only [sparkFold]
      rw [k1]
      simp
    · intro hb p hpm
      rw [(f5 hb).2] at hpm
      exact k2 p hpm
  · intro hSky hb p hpm
    rw [(f4 hb).2] at hpm
    simp only [List.mem_map] at hpm
    obtain ⟨bs, -, rfl⟩ := hpm
    exact hSky _ _ _ _ _ _


theorem fireworksCalls_step (L : Lib) (O : SparkOps) (ds : Nat → FireworksDraws) (k : Nat)
    (s t : Globals × FireworksVars) (c : FireworksCall)
    (ht : fireworksCalls L O ds k s = some t)
    (hc : fireworksRun L O (ds k) t.1 t.2 = some c) :
    fireworksNth L O ds k s = some c ∧
      fireworksCalls L O ds (k + 1) s = some (c.globals, c.vars) := by
  constructor
  · simp only [fireworksNth, ht, Option.some_bind, hc]
  · simp only [fireworksCalls, ht, Option.some_bind, fireworks, hc, Option.map_some']

/-- A call made after any earlier call, on a pool of at most 255 sparks: `effectInit` is
true and `gSkyburst` is 0 on entry, so the burst block runs exactly when the loop counts
`sparksDone = 0`. -/
theorem fireworksRun_later (L : Lib) (O : SparkOps) (d : FireworksDraws) (g : Globals)
    (v : FireworksVars) (hi : g.effectInit = true) (hs : g.gSkyburst = 0)
    (hp : g.gSparks.length ≤ 255) :
    ∃ c : FireworksCall, fireworksRun L O d g v = some c ∧
      c.moved = g.gSparks.map (fun s =>
        if fireworksLife v.sparkLife ≤ 0 then { s with «show» := 0 } else s) ∧
      (c.burst = true ↔ c.sparksDone = 0) ∧
      (c.burst = true → c.vars.sparkLife = (d.life : Int)) ∧
      (c.burst = false → c.vars.sparkLife = fireworksLife v.sparkLife) ∧
      c.globals.effectInit = true ∧ c.globals.gSkyburst = 0 ∧
      c.globals.gSparks.length = g.gSparks.length ∧
      ((∀ s, (O.Move s).show = s.show) → (∀ s leds, (O.Draw s leds).1.show = s.show) →
        ∀ w : Nat, (∀ p ∈ g.gSparks,
          (if fireworksLife v.sparkLife ≤ 0 then { p with «show» := 0 } else p).show = w) →
        c.sparksDone = (w * g.gSparks.length) % 256 ∧
        (c.burst = false → ∀ p ∈ c.globals.gSparks, p.show = w)) ∧
      ((∀ seed sx sy dv col p, (O.Skyburst seed sx sy dv col p).show = 1) →
        c.burst = true → ∀ p ∈ c.globals.gSparks, p.show = 1) := by
  obtain ⟨c, r1, r2, r3, r4, r5, r6, r7, r8, r9, r10⟩ := fireworksRun_call L O d g v hp
  refine ⟨c, r1, r2, ?_, r4, r5, r6, r7, r8, r9, r10⟩
  rw [r3, fireworksStart_of_init g hi, hs]
  simp

/-- After the first call, every later call returns, with `effectInit` true, `gSkyburst`
cleared, the pool at its size and `sparkLife` not below 0. -/
theorem fireworksCalls_invariant (L : Lib) (O : SparkOps) (ds : Nat → FireworksDraws)
    (s s1 : Globals × FireworksVars) (n : Nat) (hn : n ≤ 255)
    (h1 : fireworksCalls L O ds 1 s = some s1)
    (hi : s1.1.effectInit = true) (hs : s1.1.gSkyburst = 0) (hp : s1.1.gSparks.length = n)
    (hl : 0 ≤ s1.2.sparkLife) (i : Nat) :
    ∃ t : Globals × FireworksVars, fireworksCalls L O ds (i + 1) s = some t ∧
      t.1.effectInit = true ∧ t.1.gSkyburst = 0 ∧ t.1.gSparks.length = n ∧
      0 ≤ t.2.sparkLife := by
  induction i with
  | zero => exact ⟨s1, h1, hi, hs, hp, hl⟩
  | succ i ih =>
    obtain ⟨t, ht, ti, ts, tp, tl⟩ := ih
    obtain ⟨c, r1, -, -, r4, r5, r6, r7, r8, -, -⟩ :=
      fireworksRun_later L O (ds (i + 1)) t.1 t.2 ti ts (by omega)
    refine ⟨(c.globals, c.vars), (fireworksCalls_step L O ds (i + 1) s t c ht r1).2, r6, r7,
      by rw [r8, tp], ?_⟩
    cases hb : c.burst
    · rw [r5 hb]; exact fireworksLife_nonneg _ tl
    · rw [r4 hb]; omega


/-- Every call after the first returns, and triggers a burst exactly when it counts
`sparksDone = 0`. -/
theorem fireworksNth_later (L : Lib) (O : SparkOps) (ds : Nat → FireworksDraws)
    (s s1 : Globals × FireworksVars) (n : Nat) (hn : n ≤ 255)
    (h1 : fireworksCalls L O ds 1 s = some s1)
    (hi : s1.1.effectInit = true) (hs : s1.1.gSkyburst = 0) (hp : s1.1.gSparks.length = n)
    (hl : 0 ≤ s1.2.sparkLife) (j : Nat) (hj : 1 ≤ j) :
    ∃ c : FireworksCall, fireworksNth L O ds j s = some c ∧
      (c.burst = true ↔ c.sparksDone = 0) ∧ c.moved.length = n := by
  obtain ⟨i, rfl⟩ : ∃ i, j = i + 1 := ⟨j - 1, by omega⟩
  obtain ⟨t, ht, ti, ts, tp, -⟩ := fireworksCalls_invariant L O ds s s1 n hn h1 hi hs hp hl i
  obtain ⟨c, r1, r2, r3, -⟩ := fireworksRun_later L O (ds (i + 1)) t.1 t.2 ti ts (by omega)
  refine ⟨c, (fireworksCalls_step L O ds (i + 1) s t c ht r1).1, r3, ?_⟩
  rw [r2, List.length_map, tp]

/-- While no later call triggers a burst, `sparkLife` counts down by one per call. -/
theorem fireworksCalls_countdown (L : Lib) (O : SparkOps) (ds : Nat → FireworksDraws)
    (s s1 : Globals × FireworksVars) (n : Nat) (hn : n ≤ 255)
    (h1 : fireworksCalls L O ds 1 s = some s1)
    (hi : s1.1.effectInit = true) (hs : s1.1.gSkyburst = 0) (hp : s1.1.gSparks.length = n)
    (life : Nat) (hl : s1.2.sparkLife = (life : Int)) (i : Nat) (hil : i ≤ life)
    (hno : ∀ j, 1 ≤ j → j ≤ i →
      ∃ c : FireworksCall, fireworksNth L O ds j s = some c ∧ c.burst = false) :
    ∃ t : Globals × FireworksVars, fireworksCalls L O ds (i + 1) s = some t ∧
      t.1.effectInit = true ∧ t.1.gSkyburst = 0 ∧ t.1.gSparks.length = n ∧
      t.2.sparkLife = (life : Int) - (i : Int) := by
  induction i with
  | zero => exact ⟨s1, h1, hi, hs, hp, by rw [hl]; simp⟩
  | succ i ih =>
    obtain ⟨t, ht, ti, ts, tp, tl⟩ := ih (by omega) (fun j h1j hji => hno j h1j (by omega))
    obtain ⟨c, r1, -, -, -, r5, r6, r7, r8, -, -⟩ :=
      fireworksRun_later L O (ds (i + 1)) t.1 t.2 ti ts (by omega)
    obtain ⟨k1, k2⟩ := fireworksCalls_step L O ds (i + 1) s t c ht r1
    obtain ⟨c2, hc2, hb2⟩ := hno (i + 1) (by omega) (Nat.le_refl _)
    rw [k1] at hc2
    have hcc : c = c2 := Option.some.inj hc2
    subst hcc
    refine ⟨(c.globals, c.vars), k2, r6, r7, by rw [r8, tp], ?_⟩
    show c.vars.sparkLife = _
    rw [r5 hb2, tl]
    unfold fireworksLife
    split_ifs <;> push_cast <;> omega

/-- If no later call before it triggers a burst, the `life`-th later call hands every
spark to `Move()` with `show = 0`; if `Move()` and `Draw()` leave `show` alone, it counts
`sparksDone = 0` and triggers a burst. -/
theorem fireworksNth_last (L : Lib) (O : SparkOps) (ds : Nat → FireworksDraws)
    (s s1 : Globals × FireworksVars) (n : Nat) (hn : n ≤ 255)
    (h1 : fireworksCalls L O ds 1 s = some s1)
    (hi : s1.1.effectInit = true) (hs : s1.1.gSkyburst = 0) (hp : s1.1.gSparks.length = n)
    (life : Nat) (hl : s1.2.sparkLife = (life : Int)) (hl1 : 1 ≤ life)
    (hno : ∀ j, 1 ≤ j → j < life →
      ∃ c : FireworksCall, fireworksNth L O ds j s = some c ∧ c.burst = false) :
    ∃ c : FireworksCall, fireworksNth L O ds life s = some c ∧
      c.moved.length = n ∧ (∀ p ∈ c.moved, p.show = 0) ∧
      ((∀ s, (O.Move s).show = s.show) → (∀ s leds, (O.Draw s leds).1.show = s.show) →
        c.sparksDone = 0 ∧ c.burst = true) := by
  obtain ⟨t, ht, ti, ts, tp, tl⟩ := fireworksCalls_countdown L O ds s s1 n hn h1 hi hs hp life
    hl (life - 1) (by omega) (fun j h1j hj => hno j h1j (by omega))
  have hidx : life - 1 + 1 = life := by omega
  rw [hidx] at ht
  have hlife : fireworksLife t.2.sparkLife ≤ 0 := by
    rw [tl]; unfold fireworksLife; split_ifs <;> omega
  obtain ⟨c, r1, r2, r3, -, -, -, -, -, r9, -⟩ :=
    fireworksRun_later L O (ds life) t.1 t.2 ti ts (by omega)
  refine ⟨c, (fireworksCalls_step L O ds life s t c ht r1).1, ?_, ?_, ?_⟩
  · rw [r2, List.length_map, tp]
  · intro p hpm
    rw [r2] at hpm
    simp only [List.mem_map, if_pos hlife] at hpm
    obtain ⟨q, -, rfl⟩ := hpm
    rfl
  · intro hMove hDraw
    obtain ⟨w1, -⟩ := r9 hMove hDraw 0 (fun p _ => by rw [if_pos hlife])
    have h0 : c.sparksDone = 0 := by rw [w1]; simp
    exact ⟨h0, r3.mpr h0⟩


/-- When `Move()` and `Draw()` leave `show` alone and the sparks of a non-empty pool are
all shown, no later call before the `life`-th triggers a burst: each counts
`sparksDone = NUM_SPARKS`, hands the sparks to `Move()` with `show = 1` and counts
`sparkLife` down by one. -/
theorem fireworksCalls_steady (L : Lib) (O : SparkOps) (ds : Nat → FireworksDraws)
    (s s1 : Globals × FireworksVars) (n : Nat) (hn : n ≤ 255) (hn1 : 1 ≤ n)
    (h1 : fireworksCalls L O ds 1 s = some s1)
    (hi : s1.1.effectInit = true) (hs : s1.1.gSkyburst = 0) (hp : s1.1.gSparks.length = n)
    (life : Nat) (hl : s1.2.sparkLife = (life : Int))
    (hshow : ∀ p ∈ s1.1.gSparks, p.show = 1)
    (hMove : ∀ s, (O.Move s).show = s.show)
    (hDraw : ∀ s leds, (O.Draw s leds).1.show = s.show) (i : Nat) (hil : i < life) :
    ∃ t : Globals × FireworksVars, fireworksCalls L O ds (i + 1) s = some t ∧
      t.1.effectInit = true ∧ t.1.gSkyburst = 0 ∧ t.1.gSparks.length = n ∧
      t.2.sparkLife = (life : Int) - (i : Int) ∧ (∀ p ∈ t.1.gSparks, p.show = 1) ∧
      (1 ≤ i → ∃ c : FireworksCall, fireworksNth L O ds i s = some c ∧ c.burst = false ∧
        c.sparksDone = n ∧ c.moved.length = n ∧ (∀ p ∈ c.moved, p.show = 1) ∧
        c.vars.sparkLife = (life : Int) - (i : Int)) := by
  induction i with
  | zero => exact ⟨s1, h1, hi, hs, hp, by rw [hl]; simp, hshow, fun h => by omega⟩
  | succ i ih =>
    obtain ⟨t, ht, ti, ts, tp, tl, tshow, -⟩ := ih (by omega)
    have hlife : ¬ (fireworksLife t.2.sparkLife ≤ 0) := by
      rw [tl]; unfold fireworksLife; split_ifs <;> omega
    have hval : fireworksLife t.2.sparkLife = (life : Int) - ((i + 1 : Nat) : Int) := by
      rw [tl]; unfold fireworksLife; split_ifs <;> push_cast <;> omega
    obtain ⟨c, r1, r2, r3, -, r5, r6, r7, r8, r9, -⟩ :=
      fireworksRun_later L O (ds (i + 1)) t.1 t.2 ti ts (by omega)
    obtain ⟨k1, k2⟩ := fireworksCalls_step L O ds (i + 1) s t c ht r1
    obtain ⟨w1, w2⟩ := r9 hMove hDraw 1 (fun p hpm => by rw [if_neg hlife]; exact tshow p hpm)
    have hdone : c.sparksDone = n := by
      rw [w1, tp, Nat.one_mul]; omega
    have hb : c.burst = false := by
      cases hc : c.burst
      · rfl
      · have := r3.mp hc
        omega
    have hmoved : ∀ p ∈ c.moved, p.show = 1 := by
      intro p hpm
      rw [r2] at hpm
      simp only [List.mem_map, if_neg hlife] at hpm
      obtain ⟨q, hq, rfl⟩ := hpm
      exact tshow q hq
    refine ⟨(c.globals, c.vars), k2, r6, r7, by rw [r8, tp], ?_, w2 hb, fun _ =>
      ⟨c, k1, hb, hdone, by rw [r2, List.length_map, tp], hmoved, ?_⟩⟩
    · show c.vars.sparkLife = _
      rw [r5 hb, hval]
    · rw [r5 hb, hval]

/-- If `Move()` and `Draw()` leave `show` alone, some later call up to the `life`-th
triggers a burst; the first to do so counts `sparksDone = 0`. -/
theorem fireworksNth_next_burst (L : Lib) (O : SparkOps) (ds : Nat → FireworksDraws)
    (s s1 : Globals × FireworksVars) (n : Nat) (hn : n ≤ 255)
    (h1 : fireworksCalls L O ds 1 s = some s1)
    (hi : s1.1.effectInit = true) (hs : s1.1.gSkyburst = 0) (hp : s1.1.gSparks.length = n)
    (life : Nat) (hl : s1.2.sparkLife = (life : Int)) (hl1 : 1 ≤ life)
    (hMove : ∀ s, (O.Move s).show = s.show)
    (hDraw : ∀ s leds, (O.Draw s leds).1.show = s.show) :
    ∃ (j : Nat) (c : FireworksCall), 1 ≤ j ∧ j ≤ life ∧
      fireworksNth L O ds j s = some c ∧ c.burst = true ∧ c.sparksDone = 0 ∧
      ∀ j2, 1 ≤ j2 → j2 < j →
        ∃ c2 : FireworksCall, fireworksNth L O ds j2 s = some c2 ∧ c2.burst = false := by
  classical
  have hlater := fireworksNth_later L O ds s s1 n hn h1 hi hs hp (by rw [hl]; omega)
  have hex : ∃ j, 1 ≤ j ∧ j ≤ life ∧
      ∃ c : FireworksCall, fireworksNth L O ds j s = some c ∧ c.burst = true := by
    by_contra hcon
    have hno : ∀ j, 1 ≤ j → j < life →
        ∃ c : FireworksCall, fireworksNth L O ds j s = some c ∧ c.burst = false := by
      intro j h1j hjl
      obtain ⟨c, hc, -, -⟩ := hlater j h1j
      refine ⟨c, hc, ?_⟩
      cases hb : c.burst
      · rfl
      · exact absurd ⟨j, h1j, by omega, c, hc, hb⟩ hcon
    obtain ⟨c, hc, -, -, hlast⟩ := fireworksNth_last L O ds s s1 n hn h1 hi hs hp life hl hl1 hno
    exact hcon ⟨life, hl1, Nat.le_refl _, c, hc, (hlast hMove hDraw).2⟩
  obtain ⟨hj1, hjl, c, hc, hb⟩ := Nat.find_spec hex
  obtain ⟨c3, hc3, hiff, -⟩ := hlater (Nat.find hex) hj1
  rw [hc] at hc3
  have hcc : c = c3 := Option.some.inj hc3
  subst hcc
  refine ⟨Nat.find hex, c, hj1, hjl, hc, hb, hiff.mp hb, ?_⟩
  intro j2 h1j2 hj2
  obtain ⟨c2, hc2, -, -⟩ := hlater j2 h1j2
  refine ⟨c2, hc2, ?_⟩
  cases hb2 : c2.burst
  · rfl
  · exact absurd ⟨h1j2, by omega, c2, hc2, hb2⟩ (Nat.find_min hex hj2)


/-- A first call that triggers a burst: the pool has at most 255 sparks and the call
leaves `effectInit` true, `gSkyburst` cleared, the pool at its size and `sparkLife` at the
value drawn. -/
theorem fireworksNth_zero_burst (L : Lib) (O : SparkOps) (ds : Nat → FireworksDraws)
    (g : Globals) (v : FireworksVars)
    (hb : (fireworksNth L O ds 0 (g, v)).map (fun c => c.burst) = some true) :
    g.gSparks.length ≤ 255 ∧
      ∃ s1 : Globals × FireworksVars, fireworksCalls L O ds 1 (g, v) = some s1 ∧
        s1.1.effectInit = true ∧ s1.1.gSkyburst = 0 ∧
        s1.1.gSparks.length = g.gSparks.length ∧ s1.2.sparkLife = ((ds 0).life : Int) ∧
        ((∀ seed sx sy dv col p, (O.Skyburst seed sx sy dv col p).show = 1) →
          ∀ p ∈ s1.1.gSparks, p.show = 1) := by
  have h0 : fireworksNth L O ds 0 (g, v) = fireworksRun L O (ds 0) g v := by
    simp only [fireworksNth, fireworksCalls, Option.some_bind]
  rw [h0] at hb
  have hp : g.gSparks.length ≤ 255 := by
    by_contra hcon
    rw [fireworksRun_eq, if_neg hcon] at hb
    simp at hb
  obtain ⟨c, r1, -, -, r4, -, r6, r7, r8, -, r10⟩ := fireworksRun_call L O (ds 0) g v hp
  rw [r1] at hb
  have hburst : c.burst = true := by simpa using hb
  exact ⟨hp, (c.globals, c.vars), (fireworksCalls_step L O ds 0 (g, v) (g, v) c rfl r1).2, r6, r7,
    r8, r4 hburst, fun hSky => r10 hSky hburst⟩


set_option maxRecDepth 100000 in
/-- C11 (as stated, refuted): a later call triggers a new burst as soon as it counts
`sparksDone = 0`, and the new burst draws `sparkLife` afresh. With sparks that die when
they leave the grid, call number 0 triggers a burst with `sparkLife = 20`; the first later
call finds every spark dead after `Move()`, triggers a burst and leaves `sparkLife = 30`,
not 19; and the 20th later call still hands every spark to `Move()` with `show = 1`. -/
theorem fireworks_early_burst_resets_sparkLife :
    (fireworksNth sampleLib sampleSparkOps sampleDrawsSeq 0 (sampleSparkGlobals, { })).map
        (fun c => c.burst) = some true ∧
      (fireworksCalls sampleLib sampleSparkOps sampleDrawsSeq 1 (sampleSparkGlobals, { })).map
        (fun t => t.2.sparkLife) = some 20 ∧
      (fireworksNth sampleLib sampleSparkOps sampleDrawsSeq 1 (sampleSparkGlobals, { })).map
        (fun c => (c.burst, c.sparksDone, c.moved.map (fun p => p.show)))
        = some (true, 0, [1, 1, 1]) ∧
      (fireworksCalls sampleLib sampleSparkOps sampleDrawsSeq 2 (sampleSparkGlobals, { })).map
        (fun t => t.2.sparkLife) = some 30 ∧
      (fireworksNth sampleLib sampleSparkOps sampleDrawsSeq 20 (sampleSparkGlobals, { })).map
        (fun c => c.moved.map (fun p => p.show)) = some [1, 1, 1] := by
  refine ⟨by decide, by decide, by decide, by decide, by decide⟩

/-- C11 (amended): a spark burst dies within its configured lifetime. Let call number 0
of `fireworks` trigger a burst and draw the lifetime `L`, `16 <= L < 150`. Then the pool
has at most 255 sparks, the call leaves `sparkLife = L`, every later call returns,
`sparkLife` is never below 0, and a later call triggers a burst exactly when it counts
`sparksDone = 0`. As long as no later call has triggered a burst, `sparkLife` is `L - i`
after `i <= L` later calls, and if none of the first `L - 1` later calls has, the `L`-th
hands every spark of the pool to `Move()` with `show = 0`. Assuming `Move()` and `Draw()`
do not change `show`, that call counts `sparksDone = 0` and triggers the next burst, so
the next burst comes within `L <= 149` later calls, with `sparksDone = 0`. If moreover
`Skyburst` sets `show = 1` and the pool is not empty, no burst comes earlier: each of the
first `L - 1` later calls counts `sparksDone = NUM_SPARKS`, moves the sparks with
`show = 1` and leaves `sparkLife` one lower. -/
theorem fireworks_burst_lifetime (L : Lib) (O : SparkOps) (ds : Nat → FireworksDraws)
    (g : Globals) (v : FireworksVars)
    (hb : (fireworksNth L O ds 0 (g, v)).map (fun c => c.burst) = some true)
    (hL : 16 ≤ (ds 0).life ∧ (ds 0).life < 150) :
    g.gSparks.length ≤ 255 ∧
      (∃ s1 : Globals × FireworksVars, fireworksCalls L O ds 1 (g, v) = some s1 ∧
        s1.2.sparkLife = ((ds 0).life : Int) ∧ s1.1.gSparks.length = g.gSparks.length) ∧
      (∀ i : Nat, ∃ t : Globals × FireworksVars,
        fireworksCalls L O ds (i + 1) (g, v) = some t ∧ 0 ≤ t.2.sparkLife ∧
        t.1.gSparks.length = g.gSparks.length) ∧
      (∀ j : Nat, 1 ≤ j → ∃ c : FireworksCall, fireworksNth L O ds j (g, v) = some c ∧
        (c.burst = true ↔ c.sparksDone = 0) ∧ c.moved.length = g.gSparks.length) ∧
      (∀ i : Nat, i ≤ (ds 0).life →
        (∀ j, 1 ≤ j → j ≤ i →
          ∃ c : FireworksCall, fireworksNth L O ds j (g, v) = some c ∧ c.burst = false) →
        ∃ t : Globals × FireworksVars, fireworksCalls L O ds (i + 1) (g, v) = some t ∧
          t.2.sparkLife = ((ds 0).life : Int) - (i : Int)) ∧
      ((∀ j, 1 ≤ j → j < (ds 0).life →
          ∃ c : FireworksCall, fireworksNth L O ds j (g, v) = some c ∧ c.burst = false) →
        ∃ c : FireworksCall, fireworksNth L O ds (ds 0).life (g, v) = some c ∧
          c.moved.length = g.gSparks.length ∧ (∀ p ∈ c.moved, p.show = 0) ∧
          ((∀ s, (O.Move s).show = s.show) → (∀ s leds, (O.Draw s leds).1.show = s.show) →
            c.sparksDone = 0 ∧ c.burst = true)) ∧
      ((∀ s, (O.Move s).show = s.show) → (∀ s leds, (O.Draw s leds).1.show = s.show) →
        ∃ (j : Nat) (c : FireworksCall), 1 ≤ j ∧ j ≤ (ds 0).life ∧ j ≤ 149 ∧
          fireworksNth L O ds j (g, v) = some c ∧ c.burst = true ∧ c.sparksDone = 0 ∧
          ∀ j2, 1 ≤ j2 → j2 < j →
            ∃ c2 : FireworksCall, fireworksNth L O ds j2 (g, v) = some c2 ∧
              c2.burst = false) ∧
      ((∀ s, (O.Move s).show = s.show) → (∀ s leds, (O.Draw s leds).1.show = s.show) →
        (∀ seed sx sy dv col p, (O.Skyburst seed sx sy dv col p).show = 1) →
        1 ≤ g.gSparks.length →
        (∀ i : Nat, 1 ≤ i → i < (ds 0).life →
          ∃ c : FireworksCall, fireworksNth L O ds i (g, v) = some c ∧ c.burst = false ∧
            c.sparksDone = g.gSparks.length ∧ c.moved.length = g.gSparks.length ∧
            (∀ p ∈ c.moved, p.show = 1) ∧
            c.vars.sparkLife = ((ds 0).life : Int) - (i : Int)) ∧
        (∃ c : FireworksCall, fireworksNth L O ds (ds 0).life (g, v) = some c ∧
          c.moved.length = g.gSparks.length ∧ (∀ p ∈ c.moved, p.show = 0) ∧
          c.sparksDone = 0 ∧ c.burst = true)) := by
  obtain ⟨hp, s1, h1, hi, hs, hlen, hlife, hsky1⟩ := fireworksNth_zero_burst L O ds g v hb
  have hl0 : 0 ≤ s1.2.sparkLife := by rw [hlife]; omega
  refine ⟨hp, ⟨s1, h1, hlife, hlen⟩, ?_, ?_, ?_, ?_, ?_, ?_⟩
  · intro i
    obtain ⟨t, ht, -, -, tp, tl⟩ :=
      fireworksCalls_invariant L O ds (g, v) s1 _ hp h1 hi hs hlen hl0 i
    exact ⟨t, ht, tl, tp⟩
  · intro j hj
    exact fireworksNth_later L O ds (g, v) s1 _ hp h1 hi hs hlen hl0 j hj
  · intro i hil hno
    obtain ⟨t, ht, -, -, -, tl⟩ :=
      fireworksCalls_countdown L O ds (g, v) s1 _ hp h1 hi hs hlen _ hlife i hil hno
    exact ⟨t, ht, tl⟩
  · intro hno
    exact fireworksNth_last L O ds (g, v) s1 _ hp h1 hi hs hlen _ hlife (by omega) hno
  · intro hMove hDraw
    obtain ⟨j, c, h1j, hjl, hc, hbc, hdone, hmin⟩ :=
      fireworksNth_next_burst L O ds (g, v) s1 _ hp h1 hi hs hlen _ hlife (by omega) hMove hDraw
    exact ⟨j, c, h1j, hjl, by omega, hc, hbc, hdone, hmin⟩
  · intro hMove hDraw hSky hn1
    have hsteady := fireworksCalls_steady L O ds (g, v) s1 _ hp hn1 h1 hi hs hlen _ hlife
      (hsky1 hSky) hMove hDraw
    have hno : ∀ j, 1 ≤ j → j < (ds 0).life →
        ∃ c : FireworksCall, fireworksNth L O ds j (g, v) = some c ∧ c.burst = false := by
      intro j h1j hjl
      obtain ⟨-, -, -, -, -, -, -, hcall⟩ := hsteady j hjl
      obtain ⟨c, hc, hbc, -⟩ := hcall h1j
      exact ⟨c, hc, hbc⟩
    refine ⟨?_, ?_⟩
    · intro i h1i hil
      obtain ⟨-, -, -, -, -, -, -, hcall⟩ := hsteady i hil
      exact hcall h1i
    · obtain ⟨c, hc, hm, hshow, hlast⟩ :=
        fireworksNth_last L O ds (g, v) s1 _ hp h1 hi hs hlen _ hlife (by omega) hno
      obtain ⟨hd, hbc⟩ := hlast hMove hDraw
      exact ⟨c, hc, hm, hshow, hd, hbc⟩


set_option maxRecDepth 100000 in
theorem fireworks_burst_lifetime_witness :
    sampleSparkGlobals.gSparks.length ≤ 255 ∧
      (∃ s1 : Globals × FireworksVars,
        fireworksCalls sampleLib steadySparkOps sampleDrawsSeq 1 (sampleSparkGlobals, { })
          = some s1 ∧ s1.2.sparkLife = 20 ∧ s1.1.gSparks.length = 3) ∧
      (∀ i : Nat, i < 20 → ∃ t : Globals × FireworksVars,
        fireworksCalls sampleLib steadySparkOps sampleDrawsSeq (i + 1) (sampleSparkGlobals, { })
          = some t ∧ t.2.sparkLife = 20 - (i : Int)) ∧
      (∀ i : Nat, 1 ≤ i → i < 20 → ∃ c : FireworksCall,
        fireworksNth sampleLib steadySparkOps sampleDrawsSeq i (sampleSparkGlobals, { })
          = some c ∧ c.burst = false ∧ c.sparksDone = 3 ∧ c.moved.length = 3 ∧
        (∀ p ∈ c.moved, p.show = 1) ∧ c.vars.sparkLife = 20 - (i : Int)) ∧
      (∃ c : FireworksCall,
        fireworksNth sampleLib steadySparkOps sampleDrawsSeq 20 (sampleSparkGlobals, { })
          = some c ∧ c.moved.length = 3 ∧ (∀ p ∈ c.moved, p.show = 0) ∧
        c.sparksDone = 0 ∧ c.burst = true) ∧
      (∃ (j : Nat) (c : FireworksCall), 1 ≤ j ∧ j ≤ 20 ∧ j ≤ 149 ∧
        fireworksNth sampleLib steadySparkOps sampleDrawsSeq j (sampleSparkGlobals, { })
          = some c ∧ c.burst = true ∧ c.sparksDone = 0 ∧
        ∀ j2, 1 ≤ j2 → j2 < j → ∃ c2 : FireworksCall,
          fireworksNth sampleLib steadySparkOps sampleDrawsSeq j2 (sampleSparkGlobals, { })
            = some c2 ∧ c2.burst = false) := by
  have hM : ∀ s, (steadySparkOps.Move s).show = s.show := fun _ => rfl
  have hD : ∀ s leds, (steadySparkOps.Draw s leds).1.show = s.show := fun _ _ => rfl
  have hS : ∀ seed sx sy dv col p, (steadySparkOps.Skyburst seed sx sy dv col p).show = 1 :=
    fun _ _ _ _ _ _ => rfl
  have hlife : (sampleDrawsSeq 0).life = 20 := rfl
  have hpool : sampleSparkGlobals.gSparks.length = 3 := rfl
  obtain ⟨t1, t2, -, -, t5, -, t7, t8⟩ :=
    fireworks_burst_lifetime sampleLib steadySparkOps sampleDrawsSeq sampleSparkGlobals { }
      (by decide) ⟨by decide, by decide⟩
  rw [hlife, hpool] at t2 t8
  rw [hlife] at t5 t7
  obtain ⟨w1, w2⟩ := t8 hM hD hS (by decide)
  refine ⟨t1, t2, ?_, w1, w2, t7 hM hD⟩
  intro i hi
  refine t5 i (by omega) (fun j h1j hji => ?_)
  obtain ⟨c, hc, hbc, -⟩ := w1 j h1j (by omega)
  exact ⟨c, hc, hbc⟩

end FindMyWay
